import Mathlib

/-!
# Verification of the HCM-based rerouting strategies (EBkSP.py / RkSP.py)

A shallow embedding of the rerouting decision engine of the two controller
scripts `EBkSP.py` and `RkSP.py`.  The external traffic simulator (the
`traci` client) is modelled as an oracle `Env` of time-indexed query
functions; Python floats are modelled as exact rationals; Python dicts and
sets are modelled as association lists and membership-deduplicated lists.
Exceptions raised by the Python code are modelled with `Except Err`.
`math.exp` / `math.log` are modelled as abstract function parameters
(`expF`, `logF`); theorems that depend on their behaviour take the relevant
analytic facts (strict monotonicity of `exp`, negativity of `log` on
`(0,1)`) as hypotheses.

The external `k_shortest_paths` module (imported by both scripts, not part
of the two source files) is modelled as an oracle parameter `ksp`; no claim
below depends on its internals.
-/

/-- Errors corresponding to Python exceptions that the modelled code can
raise.  `keyError` records the offending origin-destination pair. -/

inductive Err where
  | zeroDivisionError
  | keyError (source destination : String)
  | indexError
  | valueError
  | invalidRoute
deriving DecidableEq, Repr

/-- Default value of the Car-Following Model (`MIN_GAP = 2.5` in both
scripts). -/
def MIN_GAP : ℚ := 5 / 2

/-- Static and dynamic attributes stored on a road-graph edge by
`build_road_graph` (`length`, `speed`, `weight`). -/
structure EdgeAttr where
  length : ℚ
  speed : ℚ
  weight : ℚ
deriving DecidableEq, Repr

/-- The road graph: a directed graph over segment-ID strings, with one
attribute record per directed edge (naming the `networkx.DiGraph` built by
`build_road_graph`). -/
structure Graph where
  nodes : List String
  edges : List ((String × String) × EdgeAttr)
deriving DecidableEq, Repr

/-- `graph.successors_iter(road)`: targets of the edges leaving `road`. -/
def Graph.succ (g : Graph) (road : String) : List String :=
  g.edges.filterMap (fun e => if e.1.1 == road then some e.1.2 else none)

/-- Attribute lookup `graph.edge[road][successor]`; `none` when the edge is
absent (Python would raise `KeyError`). -/
def Graph.attr? (g : Graph) (road s : String) : Option EdgeAttr :=
  (g.edges.find? (fun e => e.1.1 == road && e.1.2 == s)).map (·.2)

/-- Attribute lookup with a zero default.  The callers below only use it on
edges that are present in the graph. -/
def Graph.attrD (g : Graph) (road s : String) : EdgeAttr :=
  (g.attr? road s).getD ⟨0, 0, 0⟩

/-- `graph[u][v]["weight"]` (total: `0` for a missing edge, where Python
would raise `KeyError`; the theorems below restrict to present edges). -/
def Graph.weightD (g : Graph) (u v : String) : ℚ :=
  (g.attrD u v).weight

/-- `nx.DiGraph.reverse(graph)`: every edge reversed, attributes kept. -/
def Graph.reverse (g : Graph) : Graph :=
  { nodes := g.nodes, edges := g.edges.map (fun e => ((e.1.2, e.1.1), e.2)) }

/-- The simulator oracle: each `traci` query the two scripts perform,
indexed by the simulation step at which it is made. -/
structure Env where
  minExpected : Nat → Nat
  adaptedTraveltime : Nat → String → ℚ
  traveltime : Nat → String → ℚ
  lastStepVehicleIDs : Nat → String → List String
  vehicleSpeed : Nat → String → ℚ
  lastStepLength : Nat → String → ℚ
  vehicleRoute : Nat → String → List String
  vehicleRoadID : Nat → String → String

/-- Python `set.add` on a membership-deduplicated list. -/
def setAdd {α : Type} [DecidableEq α] (x : α) (l : List α) : List α :=
  if x ∈ l then l else l ++ [x]

/-- Python `set.union` on membership-deduplicated lists. -/
def listUnion (a b : List String) : List String :=
  a ++ b.filter (fun x => decide (x ∉ a))

/-- `road.startswith(':')`, the internal-junction marker test.  Modelled on
the underlying character list — equivalent to `String.startsWith` for the
single-character pattern `":"` (and kernel-computable, unlike
`String.startsWith`). -/
def isInternal (road : String) : Bool := road.data.head? == some ':'

/-- The travel-time sample of `update_road_attributes`: the adapted travel
time at `time`, falling back to the instantaneous travel time when the
adapted sample is non-positive. -/
def sampleTravelTime (env : Env) (time : Nat) (road : String) : ℚ :=
  let travel_time := env.adaptedTraveltime time road
  if travel_time ≤ 0 then env.traveltime time road else travel_time

/-- Mean instantaneous speed of the vehicles currently on `road`
(`np.asarray(speedList).mean()`), `0` when the segment is empty. -/
def meanSpeed (env : Env) (time : Nat) (road : String) : ℚ :=
  let speedList := (env.lastStepVehicleIDs time road).map (env.vehicleSpeed time)
  if speedList.length > 0 then speedList.sum / (speedList.length : ℚ) else 0

/-- The smoothed weight written by one non-first sample:
`t = (old + travel_time) / 2`, replaced by the raw sample when the average
is non-positive. -/
def smoothWeight (old travel_time : ℚ) : ℚ :=
  let t := (old + travel_time) / 2
  if t > 0 then t else travel_time

/-- The per-edge weight write of one node-loop iteration of
`update_road_attributes` (both variants): an edge leaving `road` gets the
raw sample when `begin_of_cycle` holds, and the smoothed weight otherwise;
other edges are unchanged. -/
def wwEntry (travel_time : ℚ) (begin_of_cycle : Bool) (road : String)
    (e : (String × String) × EdgeAttr) : (String × String) × EdgeAttr :=
  if e.1.1 == road then
    (e.1, { e.2 with weight :=
      if begin_of_cycle then travel_time
      else smoothWeight e.2.weight travel_time })
  else e

/-- The weight write of one node-loop iteration of
`update_road_attributes` (both variants), over the whole edge list. -/
def weightWrite (travel_time : ℚ) (begin_of_cycle : Bool) (road : String)
    (edges : List ((String × String) × EdgeAttr)) :
    List ((String × String) × EdgeAttr) :=
  edges.map (wwEntry travel_time begin_of_cycle road)
namespace EBkSP

/-- The per-successor statistics step of the successor loop of
`EBkSP.update_road_attributes`: congestion check (mean occupant speed over
the edge speed limit strictly below `delta`) and capacity bookkeeping
(`Kjam = length / (avgVehicleLength + MIN_GAP)`). -/
def statsStep (delta : ℚ) (road : String)
    (edges : List ((String × String) × EdgeAttr)) (avgSpeed avl : ℚ)
    (p : List String × ℚ × Nat) (successor_road : String) :
    List String × ℚ × Nat :=
  (if avgSpeed / (Graph.attrD ⟨[], edges⟩ road successor_road).speed < delta
      then setAdd road p.1 else p.1,
   p.2.1 + (Graph.attrD ⟨[], edges⟩ road successor_road).length /
     (avl + MIN_GAP),
   p.2.2 + 1)

/-- One iteration of the `for road in graph.nodes_iter()` loop of
`EBkSP.update_road_attributes`, acting on the running state
`(edges, congestedRoads, capacity_sum, counter)`.  The Python loop
interleaves, per successor, the congestion / capacity bookkeeping and the
weight write; since `nx.DiGraph` stores exactly one edge per ordered pair,
this is split here into a statistics fold over the successors followed by a
single weight-updating map over the edges leaving `road`, with identical
effect (the statistics only read the static `speed` / `length` fields). -/
def roadPass (env : Env) (time : Nat) (begin_of_cycle : Bool) (delta : ℚ)
    (st : List ((String × String) × EdgeAttr) × List String × ℚ × Nat)
    (road : String) :
    List ((String × String) × EdgeAttr) × List String × ℚ × Nat :=
  let travel_time := sampleTravelTime env time road
  if isInternal road then st
  else
    let stats := (Graph.succ ⟨[], st.1⟩ road).foldl
      (statsStep delta road st.1 (meanSpeed env time road)
        (env.lastStepLength time road))
      st.2
    let edges' := weightWrite travel_time begin_of_cycle road st.1
    (edges', stats)

/-- `EBkSP.update_road_attributes`: refreshes every non-internal segment's
outgoing edge weights, collects the congested set (mean occupant speed over
edge speed limit strictly below `delta`), and returns the mean per-edge
capacity.  The final `capacity_sum / counter` is total rational division
(`0` when no edge was counted, where Python would raise
`ZeroDivisionError`). -/
def update_road_attributes (env : Env) (g : Graph) (time : Nat)
    (begin_of_cycle : Bool) (delta : ℚ) : Graph × List String × ℚ :=
  let st := g.nodes.foldl (roadPass env time begin_of_cycle delta)
    (g.edges, [], 0, 0)
  (⟨g.nodes, st.1⟩, st.2.1, st.2.2.1 / (st.2.2.2 : ℚ))
end EBkSP
namespace RkSP

/-- The per-successor congestion step of `RkSP.update_road_attributes`:
a segment is marked congested when the mean occupant speed over the edge
speed limit is strictly *above* `delta`. -/
def congStep (delta : ℚ) (road : String)
    (edges : List ((String × String) × EdgeAttr)) (avgSpeed : ℚ)
    (c : List String) (successor_road : String) : List String :=
  if avgSpeed / (Graph.attrD ⟨[], edges⟩ road successor_road).speed > delta
    then setAdd road c else c

/-- One iteration of the node loop of `RkSP.update_road_attributes`.  Same
structure as the EBkSP variant but with no capacity bookkeeping and with
the congestion comparison `avgSpeed / maxSpeed > delta`. -/
def roadPass (env : Env) (time : Nat) (begin_of_cycle : Bool) (delta : ℚ)
    (st : List ((String × String) × EdgeAttr) × List String)
    (road : String) :
    List ((String × String) × EdgeAttr) × List String :=
  let travel_time := sampleTravelTime env time road
  if isInternal road then st
  else
    let congested' := (Graph.succ ⟨[], st.1⟩ road).foldl
      (congStep delta road st.1 (meanSpeed env time road))
      st.2
    let edges' := weightWrite travel_time begin_of_cycle road st.1
    (edges', congested')

/-- `RkSP.update_road_attributes`: like the EBkSP variant but classifying a
segment as congested when the speed ratio is strictly *above* `delta`, and
returning no capacity average. -/
def update_road_attributes (env : Env) (g : Graph) (time : Nat)
    (begin_of_cycle : Bool) (delta : ℚ) : Graph × List String :=
  let st := g.nodes.foldl (roadPass env time begin_of_cycle delta)
    (g.edges, [])
  (⟨g.nodes, st.1⟩, st.2)
end RkSP
namespace EBkSP

/-- `EBkSP.getRemTravelTime`: remaining travel time `RemTT` (sum of the
current smoothed weights along consecutive route segments) and free-flow
remaining travel time `RemFFTT` (the same sum restricted to edges whose
source segment is not congested). -/
def getRemTravelTime (route : List String) (g : Graph)
    (congestedRoads : List String) : ℚ × ℚ :=
  (route.zip route.tail).foldl
    (fun p e =>
      let w := g.weightD e.1 e.2
      (p.1 + w, if e.1 ∈ congestedRoads then p.2 else p.2 + w))
    (0, 0)

/-- The descending-urgency ordering used to model
`sorted(vehicle_dict, key=vehicle_dict.get, reverse=True)`. -/
def urgRel (p q : String × ℚ) : Prop := q.2 ≤ p.2

instance : DecidableRel urgRel := fun p q =>
  inferInstanceAs (Decidable (q.2 ≤ p.2))

instance : IsTotal (String × ℚ) urgRel :=
  ⟨fun a b => le_total b.2 a.2⟩

instance : IsTrans (String × ℚ) urgRel :=
  ⟨fun _ _ _ h1 h2 => le_trans h2 h1⟩

/-- The per-vehicle urgency computation of `EBkSP.sort_by_urgency`:
relative mode (`method == "RCI"`) divides by `RemFFTT` — Python raises
`ZeroDivisionError` when `RemFFTT = 0`; any other method uses the absolute
difference. -/
def urgencyOf (env : Env) (time : Nat) (g : Graph)
    (congestedRoads : List String) (method : String) (vehicle : String) :
    Except Err (String × ℚ) :=
  let route := env.vehicleRoute time vehicle
  let r := getRemTravelTime route g congestedRoads
  if method == "RCI" then
    if r.2 = 0 then Except.error Err.zeroDivisionError
    else Except.ok (vehicle, (r.1 - r.2) / r.2)
  else Except.ok (vehicle, r.1 - r.2)

/-- `EBkSP.sort_by_urgency` computes each vehicle's urgency (see
`urgencyOf` for the failure mode) and returns the vehicles sorted by
descending urgency.  The input is a `traci` vehicle set, so it contains no
duplicates; the Python dict of urgencies is modelled as the list of
`(vehicle, urgency)` pairs, and the descending sort (`sorted` with
`reverse=True`) as an insertion sort under `urgRel`. -/
def sort_by_urgency (env : Env) (time : Nat) (g : Graph)
    (vehicles : List String) (method : String)
    (congestedRoads : List String) : Except Err (List String) :=
  match vehicles.mapM (urgencyOf env time g congestedRoads method) with
  | Except.error e => Except.error e
  | Except.ok pairs =>
    Except.ok ((List.insertionSort urgRel pairs).map (·.1))

/-- `EBkSP.computePopularity`: entropy-based popularity of a candidate
path.  `math.exp` / `math.log` are the abstract parameters `expF` / `logF`;
in exact rational arithmetic the `OverflowError` branch of the source
(saturating the popularity to `+inf`) cannot trigger and is not modelled.
`omega` is computed before the `fc == 0 or capacity == 0` guard, exactly as
in the source (rational division by zero is total, where Python would raise
`ZeroDivisionError` for a zero capacity).  The loop structure is split into
`footprintN`, `popInner` and `popOuter` below.

The total footprint mass `N` (sum of all footprint counts): -/
def footprintN (footprint_counter : List (String × Nat)) : ℚ :=
  footprint_counter.foldl (fun acc kv => acc + (kv.2 : ℚ)) 0

/-- The footprint count of one road, as a rational
(`footprint_counter.get(road, 0)`). -/
def fcD (footprint_counter : List (String × Nat)) (road : String) : ℚ :=
  (((footprint_counter.lookup road).getD 0 : Nat) : ℚ)

/-- The edge capacity used by the popularity computation:
`length / (avgVehicleLength + MIN_GAP)` with the mean vehicle length
sampled from the source road. -/
def capacityOf (env : Env) (time : Nat) (g : Graph)
    (road successor_road : String) : ℚ :=
  (g.attrD road successor_road).length /
    (env.lastStepLength time road + MIN_GAP)

/-- One term of the inner successor loop of `EBkSP.computePopularity`:
skipped when the footprint count or the successor capacity is zero,
otherwise `omega * fc/N * log (fc/N)` is accumulated
(`omega = avgCapacity / capacity`). -/
def popInner (logF : ℚ → ℚ) (env : Env) (time : Nat) (g : Graph)
    (footprint_counter : List (String × Nat)) (avgCapacity N : ℚ)
    (road : String) (acc2 : ℚ) (successor_road : String) : ℚ :=
  if fcD footprint_counter road = 0 ∨
      capacityOf env time g road successor_road = 0 then acc2
  else acc2 + avgCapacity / capacityOf env time g road successor_road *
    fcD footprint_counter road / N *
    logF (fcD footprint_counter road / N)

/-- The per-road accumulation of `EBkSP.computePopularity`: all successor
terms of one path road. -/
def popOuter (logF : ℚ → ℚ) (env : Env) (time : Nat) (g : Graph)
    (footprint_counter : List (String × Nat)) (avgCapacity N : ℚ)
    (acc : ℚ) (road : String) : ℚ :=
  (g.succ road).foldl
    (popInner logF env time g footprint_counter avgCapacity N road) acc

def computePopularity (expF logF : ℚ → ℚ) (env : Env) (time : Nat)
    (g : Graph) (path : List String)
    (footprint_counter : List (String × Nat)) (avgCapacity : ℚ) : ℚ :=
  let N : ℚ := footprintN footprint_counter
  let sum := path.foldl
    (popOuter logF env time g footprint_counter avgCapacity N) 0
  expF (-sum)

/-- One iteration of the path loop of `EBkSP.getLeastPopularPath`: update
the running least-popular path when the candidate's popularity is `<=` the
running minimum. -/
def popStep (expF logF : ℚ → ℚ) (env : Env) (time : Nat) (g : Graph)
    (footprint_counter : List (String × Nat)) (avgCapacity : ℚ)
    (st : Option (List String) × WithTop ℚ) (path : List String) :
    Option (List String) × WithTop ℚ :=
  if ((computePopularity expF logF env time g path footprint_counter
        avgCapacity : ℚ) : WithTop ℚ) ≤ st.2 then
    (some path,
     ((computePopularity expF logF env time g path footprint_counter
        avgCapacity : ℚ) : WithTop ℚ))
  else st

/-- `EBkSP.getLeastPopularPath`: the last path of smallest popularity
(the source updates its running minimum on `<=`).  The initial
`smallestPopularity = float('inf')` is `⊤ : WithTop ℚ`. -/
def getLeastPopularPath (expF logF : ℚ → ℚ) (env : Env) (time : Nat)
    (g : Graph) (paths : List (List String))
    (footprint_counter : List (String × Nat)) (avgCapacity : ℚ) :
    Option (List String) :=
  (paths.foldl (popStep expF logF env time g footprint_counter avgCapacity)
    (none, (⊤ : WithTop ℚ))).1

/-- Footprint increment for one road of a newly committed path. -/
def incrFootprint (fp : List (String × Nat)) (road : String) :
    List (String × Nat) :=
  if (fp.lookup road).isSome then
    fp.map (fun kv => if kv.1 == road then (kv.1, kv.2 + 1) else kv)
  else fp ++ [(road, 1)]

/-- The vehicle loop of `EBkSP.ebksp_reroute`, threading the issued
route-replacement commands, the footprint counter and the `firstVehicle`
flag.  Failure modes of the source, in loop order per vehicle:
`route[-1]` on an empty route raises `IndexError`; the unguarded
`allPaths[(source, destination)]` lookup raises `KeyError`; for the first
vehicle `paths[0]` on an empty candidate list raises `IndexError`; for a
later vehicle `getLeastPopularPath` returns `None` on an empty candidate
list and `traci.vehicle.setRoute(vehicle, None)` then raises (modelled as
`invalidRoute`). -/
def ebkspGo (expF logF : ℚ → ℚ) (env : Env) (time : Nat) (g : Graph)
    (allPaths : List ((String × String) × List (List String)))
    (avgCapacity : ℚ) :
    List String → Bool → List (String × Nat) → List (String × List String) →
    Except Err (List (String × List String))
  | [], _, _, cmds => Except.ok cmds
  | vehicle :: rest, firstVehicle, footprint_counter, cmds =>
    let route := env.vehicleRoute time vehicle
    let source := env.vehicleRoadID time vehicle
    match route.getLast? with
    | none => Except.error Err.indexError
    | some destination =>
      if source ≠ destination then
        match allPaths.lookup (source, destination) with
        | none => Except.error (Err.keyError source destination)
        | some paths =>
          let newPath? :=
            if firstVehicle then paths.head?
            else getLeastPopularPath expF logF env time g paths
              footprint_counter avgCapacity
          match newPath? with
          | none =>
            Except.error (if firstVehicle then Err.indexError
              else Err.invalidRoute)
          | some newPath =>
            let fp' := newPath.foldl incrFootprint footprint_counter
            ebkspGo expF logF env time g allPaths avgCapacity rest false fp'
              (cmds ++ [(vehicle, newPath)])
      else
        ebkspGo expF logF env time g allPaths avgCapacity rest firstVehicle
          footprint_counter cmds

/-- `EBkSP.ebksp_reroute`: processes the urgency-sorted vehicles, giving
the first processed vehicle `paths[0]` and every later vehicle its least
popular candidate path; returns the issued route-replacement commands. -/
def ebksp_reroute (expF logF : ℚ → ℚ) (env : Env) (time : Nat) (g : Graph)
    (vehicles : List String)
    (allPaths : List ((String × String) × List (List String)))
    (avgCapacity : ℚ) : Except Err (List (String × List String)) :=
  ebkspGo expF logF env time g allPaths avgCapacity vehicles true [] []

/-- `EBkSP.updateODPairs`: the origin-destination pairs of the selected
vehicles, skipping vehicles currently on an internal junction (road ID
starting with `":"`).  `route[-1]` is modelled with a default for the
empty route (simulator routes are never empty; the theorems below assume
non-empty routes). -/
def updateODPairs (env : Env) (time : Nat) (selectedVehicles : List String) :
    List (String × String) :=
  selectedVehicles.foldl (fun odPairs vehicle =>
    let source := env.vehicleRoadID time vehicle
    if isInternal source then odPairs
    else
      let route := env.vehicleRoute time vehicle
      let destination := route.getLast?.getD ""
      setAdd (source, destination) odPairs) []

/-- `EBkSP.computeAllkShortestPaths`: memoizing cache fill — computes the
`K` shortest paths (through the external `ksp` oracle) for every pair not
already cached and with distinct endpoints. -/
def computeAllkShortestPaths
    (ksp : Graph → String → String → Nat → List (List String)) (g : Graph)
    (odPairs : List (String × String)) (K : Nat)
    (allPaths : List ((String × String) × List (List String))) :
    List ((String × String) × List (List String)) :=
  odPairs.foldl (fun ap sd =>
    if (ap.lookup sd).isSome then ap
    else if sd.1 ≠ sd.2 then ap ++ [(sd, ksp g sd.1 sd.2 K)]
    else ap) allPaths
end EBkSP
namespace RkSP

/-- `RkSP.rksp_reroute`: reroutes each vehicle onto a uniformly random one
of its `K` shortest paths.  The random draw `random.randrange(0, len)` is
modelled by the oracle `pick` reduced modulo the candidate count; on an
empty candidate list Python raises `ValueError` (`randrange(0, 0)`).
`route[-1]` on an empty route raises `IndexError`.  Returns the issued
route-replacement commands. -/
def rkspGo (env : Env) (time : Nat) (pick : String → Nat)
    (ksp : Graph → String → String → Nat → List (List String)) (g : Graph)
    (K : Nat) :
    List String → List (String × List String) →
    Except Err (List (String × List String))
  | [], cmds => Except.ok cmds
  | vehicle :: rest, cmds =>
    let source := env.vehicleRoadID time vehicle
    if isInternal source then rkspGo env time pick ksp g K rest cmds
    else
      let route := env.vehicleRoute time vehicle
      match route.getLast? with
      | none => Except.error Err.indexError
      | some destination =>
        if source ≠ destination then
          let k_paths := ksp g source destination K
          match k_paths with
          | [] => Except.error Err.valueError
          | p :: ps =>
            let random_path := pick vehicle % (p :: ps).length
            rkspGo env time pick ksp g K rest
              (cmds ++ [(vehicle, (p :: ps).getD random_path [])])
        else rkspGo env time pick ksp g K rest cmds

/-- `RkSP.rksp_reroute` (see `rkspGo`). -/
def rksp_reroute (env : Env) (time : Nat) (pick : String → Nat)
    (ksp : Graph → String → String → Nat → List (List String))
    (vehicles : List String) (g : Graph) (K : Nat) :
    Except Err (List (String × List String)) :=
  rkspGo env time pick ksp g K vehicles []
end RkSP

/-!
## Breadth-first traversal and candidate selection

`nx.bfs_edges(reverseGraph, road)` enumerates the tree edges of a
breadth-first search in discovery order: a FIFO queue expands discovered
nodes in order, yielding `(parent, child)` for each newly discovered child.
That enumeration order coincides with a layer-by-layer expansion (the FIFO
queue always consists of the current layer's remainder followed by the
already-discovered part of the next layer), which is the formulation used
here because it exposes the breadth-first layers directly.
-/
/-- Expand one node `u`: fold over its successors, collecting a tree edge
and marking each not-yet-visited successor.  State:
`(tree edges so far, visited, discovered this round)`. -/
def expandNode (succ : String → List String) (u : String)
    (st : List (String × String) × List String × List String) :
    List (String × String) × List String × List String :=
  (succ u).foldl (fun st v =>
    if v ∈ st.2.1 then st
    else (st.1 ++ [(u, v)], st.2.1 ++ [v], st.2.2 ++ [v])) st

/-- Expand one whole frontier (breadth-first layer) in order. -/
def bfsRound (succ : String → List String) (frontier visited : List String) :
    List (String × String) × List String × List String :=
  frontier.foldl (fun st u => expandNode succ u st) ([], visited, [])

/-- Fuelled layer-by-layer breadth-first search.  Each group holds the tree
edges yielded while expanding one layer together with the next layer
(the children discovered by that expansion). -/
def bfsGroups (succ : String → List String) :
    Nat → List String → List String →
    List (List (String × String) × List String)
  | 0, _, _ => []
  | fuel + 1, frontier, visited =>
    match frontier with
    | [] => []
    | f :: fs =>
      let st := bfsRound succ (f :: fs) visited
      (st.1, st.2.2) :: bfsGroups succ fuel st.2.2 st.2.1

/-- `nx.bfs_edges(g, root)`: the flattened tree-edge enumeration. -/
def bfs_edges (g : Graph) (root : String) : List (String × String) :=
  ((bfsGroups g.succ (g.nodes.length + 1) [root] [root]).map (·.1)).flatten

/-- The breadth-first layer lists of the traversal of `g` from `root`
(layer 1, layer 2, ...; layer 0 is `[root]` itself). -/
def bfsLayers (g : Graph) (root : String) : List (List String) :=
  (bfsGroups g.succ (g.nodes.length + 1) [root] [root]).map (·.2)

/-- The segments within `L` breadth-first layers of `root` in `g`:
`root` itself plus the first `L` layers. -/
def withinLayers (g : Graph) (root : String) (L : Nat) : List String :=
  root :: ((bfsLayers g root).take L).flatten

/-- The inner edge loop of `select_vehicles` (identical in `EBkSP.py` and
`RkSP.py`), with its level-counting state: `count` (the level counter),
`bfs` (the children recorded since the last counter increment) and the
selected-vehicle set.  The `break` on `count == L` is modelled by
returning the selection accumulated so far. -/
def processEdges (occ : String → List String) (L : Nat) :
    List (String × String) → Nat → List String → List String → List String
  | [], _, _, selectedVehicles => selectedVehicles
  | edge :: rest, count, bfs, selectedVehicles =>
    if isInternal edge.2 then
      processEdges occ L rest count bfs selectedVehicles
    else
      let p := if edge.1 ∈ bfs then (count + 1, ([] : List String))
               else (count, bfs)
      if p.1 = L then selectedVehicles
      else
        let sel1 := if p.1 = 0 ∧ edge.1 ∉ p.2 then
            listUnion selectedVehicles (occ edge.1)
          else selectedVehicles
        let sel2 := listUnion sel1 (occ edge.2)
        processEdges occ L rest p.1 (p.2 ++ [edge.2]) sel2

/-- `select_vehicles` (identical in both scripts): for each congested road,
walk the reversed graph's breadth-first tree edges, collecting the vehicles
on traversed segments until the level counter reaches `L`. -/
def select_vehicles (env : Env) (time : Nat) (g : Graph)
    (congestedRoads : List String) (L : Nat) : List String :=
  let reverseGraph := g.reverse
  congestedRoads.foldl (fun selectedVehicles road =>
    processEdges (env.lastStepVehicleIDs time) L (bfs_edges reverseGraph road)
      0 [] selectedVehicles) []

/-- One simulation-loop iteration, as recorded by the run embeddings:
the step counter, whether the travel-time/rerouting cycle body fired, and
the road graph before and after the iteration. -/
structure TraceEvent where
  step : Nat
  fired : Bool
  gBefore : Graph
  gAfter : Graph
deriving DecidableEq, Repr
namespace EBkSP

/-- The `while` loop of `EBkSP.run`, with explicit fuel (the Python loop
can run unboundedly; exhausted fuel truncates the trace).  The loop guard
`step == 1 or traci.simulation.getMinExpectedNumber() > 0` is evaluated
with the oracle indexed by the current step counter.
`travel_time_cycle_begin` is initialised to `interval` and — exactly as in
the source — never reassigned.  An exception escaping the cycle body
(urgency sorting or rerouting) aborts the loop, as in the source where it
propagates out of `run` to the top-level handler in `start_simulation`. -/
def runLoop (expF logF : ℚ → ℚ)
    (ksp : Graph → String → String → Nat → List (List String)) (env : Env)
    (endT interval K : Nat) (delta : ℚ) (urgency : String) (level : Nat) :
    Nat → Nat → Graph → List ((String × String) × List (List String)) →
    List TraceEvent → List TraceEvent × Except Err Graph
  | 0, _, g, _, trace => (trace, Except.ok g)
  | fuel + 1, step, g, allPaths, trace =>
    let travel_time_cycle_begin := interval
    if step = 1 ∨ env.minExpected step > 0 then
      if travel_time_cycle_begin ≤ step ∧ travel_time_cycle_begin ≤ endT ∧
          step % interval = 0 then
        let u := update_road_attributes env g step
          (travel_time_cycle_begin == step) delta
        let ev : TraceEvent :=
          { step := step, fired := true, gBefore := g, gAfter := u.1 }
        if u.2.1 ≠ [] then
          let selectedVehicles := select_vehicles env step u.1 u.2.1 level
          match sort_by_urgency env step u.1 selectedVehicles urgency u.2.1 with
          | Except.error e => (trace ++ [ev], Except.error e)
          | Except.ok sortedVehicles =>
            let odPairs := updateODPairs env step sortedVehicles
            let allPaths' := computeAllkShortestPaths ksp u.1 odPairs K allPaths
            match ebksp_reroute expF logF env step u.1 sortedVehicles allPaths'
                u.2.2 with
            | Except.error e => (trace ++ [ev], Except.error e)
            | Except.ok _ =>
              runLoop expF logF ksp env endT interval K delta urgency level
                fuel (step + 1) u.1 allPaths' (trace ++ [ev])
        else
          runLoop expF logF ksp env endT interval K delta urgency level
            fuel (step + 1) u.1 allPaths (trace ++ [ev])
      else
        runLoop expF logF ksp env endT interval K delta urgency level
          fuel (step + 1) g allPaths
          (trace ++
            [{ step := step, fired := false, gBefore := g, gAfter := g }])
    else (trace, Except.ok g)

/-- `EBkSP.run` (the part after `build_road_graph`): the initial graph is a
parameter; `beginT` models the `begin` option, which `run` receives and —
exactly as in the source — never reads. -/
def run (expF logF : ℚ → ℚ)
    (ksp : Graph → String → String → Nat → List (List String)) (env : Env)
    (g : Graph) (beginT endT interval K : Nat) (delta : ℚ) (urgency : String)
    (level : Nat) (fuel : Nat) : List TraceEvent × Except Err Graph :=
  runLoop expF logF ksp env endT interval K delta urgency level fuel 1 g [] []
end EBkSP
namespace RkSP

/-- The `while` loop of `RkSP.run`: same cycle condition as the EBkSP
variant, but using the RkSP congestion detector and the random-choice
rerouter (no urgency sorting, no path cache). -/
def runLoop (pick : String → Nat)
    (ksp : Graph → String → String → Nat → List (List String)) (env : Env)
    (endT interval K : Nat) (delta : ℚ) (level : Nat) :
    Nat → Nat → Graph → List TraceEvent →
    List TraceEvent × Except Err Graph
  | 0, _, g, trace => (trace, Except.ok g)
  | fuel + 1, step, g, trace =>
    let travel_time_cycle_begin := interval
    if step = 1 ∨ env.minExpected step > 0 then
      if travel_time_cycle_begin ≤ step ∧ travel_time_cycle_begin ≤ endT ∧
          step % interval = 0 then
        let u := update_road_attributes env g step
          (travel_time_cycle_begin == step) delta
        let ev : TraceEvent :=
          { step := step, fired := true, gBefore := g, gAfter := u.1 }
        if u.2 ≠ [] then
          let selectedVehicles := select_vehicles env step u.1 u.2 level
          match rksp_reroute env step pick ksp selectedVehicles u.1 K with
          | Except.error e => (trace ++ [ev], Except.error e)
          | Except.ok _ =>
            runLoop pick ksp env endT interval K delta level fuel (step + 1)
              u.1 (trace ++ [ev])
        else
          runLoop pick ksp env endT interval K delta level fuel (step + 1)
            u.1 (trace ++ [ev])
      else
        runLoop pick ksp env endT interval K delta level fuel (step + 1) g
          (trace ++
            [{ step := step, fired := false, gBefore := g, gAfter := g }])
    else (trace, Except.ok g)

/-- `RkSP.run` (the part after `build_road_graph`); `beginT` models the
unread `begin` parameter. -/
def run (pick : String → Nat)
    (ksp : Graph → String → String → Nat → List (List String)) (env : Env)
    (g : Graph) (beginT endT interval K : Nat) (delta : ℚ) (level : Nat)
    (fuel : Nat) : List TraceEvent × Except Err Graph :=
  runLoop pick ksp env endT interval K delta level fuel 1 g []
end RkSP
namespace EBkSP

/-- The congestion condition of `EBkSP.update_road_attributes` for a
segment `x`, over a given edge list: some outgoing edge has mean occupant
speed over speed limit strictly below `delta`. -/
def congCond (env : Env) (time : Nat) (delta : ℚ)
    (edges : List ((String × String) × EdgeAttr)) (x : String) : Prop :=
  ∃ s ∈ Graph.succ ⟨[], edges⟩ x,
    meanSpeed env time x / (Graph.attrD ⟨[], edges⟩ x s).speed < delta

instance (env : Env) (time : Nat) (delta : ℚ)
    (edges : List ((String × String) × EdgeAttr)) (x : String) :
    Decidable (congCond env time delta edges x) := by
  unfold congCond
  infer_instance
end EBkSP
namespace RkSP

/-- The congestion condition of `RkSP.update_road_attributes` for a
segment `x`: some outgoing edge has mean occupant speed over speed limit
strictly *above* `delta`. -/
def congCondR (env : Env) (time : Nat) (delta : ℚ)
    (edges : List ((String × String) × EdgeAttr)) (x : String) : Prop :=
  ∃ s ∈ Graph.succ ⟨[], edges⟩ x,
    meanSpeed env time x / (Graph.attrD ⟨[], edges⟩ x s).speed > delta
end RkSP

/-- A concrete simulator oracle with one vehicle of speed 10 on segment
`"a"`, used by the congestion-direction counterexample. -/
def envFast : Env :=
  { minExpected := fun _ => 0
    adaptedTraveltime := fun _ _ => 1
    traveltime := fun _ _ => 1
    lastStepVehicleIDs := fun _ r => if r = "a" then ["v1"] else []
    vehicleSpeed := fun _ _ => 10
    lastStepLength := fun _ _ => 5
    vehicleRoute := fun _ _ => ["a", "b"]
    vehicleRoadID := fun _ _ => "a" }

/-- A concrete simulator oracle with no vehicles anywhere. -/
def envEmpty : Env :=
  { envFast with lastStepVehicleIDs := fun _ _ => [] }

/-- A two-segment graph with the single edge `a → b` (length 100, speed
limit 10). -/
def gAB : Graph :=
  ⟨["a", "b"], [(("a", "b"), ⟨100, 10, 0⟩)]⟩

/-- A three-segment path graph `c → a → b` with weights 3 and 4, used by
the urgency-ordering witness. -/
def gUrg : Graph :=
  ⟨["c", "a", "b"],
   [(("c", "a"), ⟨100, 10, 3⟩), (("a", "b"), ⟨100, 10, 4⟩)]⟩

/-- A simulator oracle with vehicle `"u"` routed `[a, b]` and vehicle
`"w"` routed `[c, a, b]`. -/
def envUrg : Env :=
  { envEmpty with
    vehicleRoute := fun _ v => if v = "w" then ["c", "a", "b"] else ["a", "b"] }
namespace EBkSP

/-- The absolute urgency (`RemTT - RemFFTT`) of a vehicle, as computed by
`sort_by_urgency` in non-relative mode. -/
def urgAbs (env : Env) (time : Nat) (g : Graph) (cr : List String)
    (v : String) : ℚ :=
  (getRemTravelTime (env.vehicleRoute time v) g cr).1 -
    (getRemTravelTime (env.vehicleRoute time v) g cr).2
end EBkSP

/-- A k-shortest-paths oracle that finds no path for any query. -/
def kspNone : Graph → String → String → Nat → List (List String) :=
  fun _ _ _ _ => []

/-- A simulator oracle whose vehicles sit on the internal junction `":j"`
with route `["a", "b"]`. -/
def envInternal : Env :=
  { envEmpty with vehicleRoadID := fun _ _ => ":j" }

/-- A graph for the diversification witness: single edge `a → b` of length
5; segments `x`, `y` are isolated. -/
def gPop : Graph :=
  ⟨["a", "b", "x", "y"], [(("a", "b"), ⟨5, 10, 0⟩)]⟩

/-- Oracle whose mean vehicle length is `5/2` everywhere, making the edge
capacity `5 / (5/2 + 5/2) = 1`. -/
def envPop : Env :=
  { envEmpty with lastStepLength := fun _ _ => 5/2 }

/-- A footprint counter carrying one vehicle on each of `a` and `b`. -/
def fpPop : List (String × Nat) := [("a", 1), ("b", 1)]

/-- The invariant each trace event of the EBkSP run loop satisfies: the
cycle fired exactly when the code's condition
`travel_time_cycle_begin <= step and travel_time_cycle_begin <= end and
step % interval == 0` held (`travel_time_cycle_begin` stays `interval`
forever), and on firing the graph was refreshed by
`update_road_attributes` with `begin_of_cycle = (interval == step)`. -/
def eventWF (env : Env) (endT interval : Nat) (delta : ℚ)
    (ev : TraceEvent) : Prop :=
  (ev.fired = true ↔
    interval ≤ ev.step ∧ interval ≤ endT ∧ ev.step % interval = 0) ∧
  (ev.fired = true → ev.gAfter =
    (EBkSP.update_road_attributes env ev.gBefore ev.step
      (interval == ev.step) delta).1) ∧
  (ev.fired = false → ev.gAfter = ev.gBefore)

/-- The invariant each trace event of the RkSP run loop satisfies
(same cycle condition as the EBkSP loop; graph refreshed by the RkSP
congestion detector). -/
def eventWFR (env : Env) (endT interval : Nat) (delta : ℚ)
    (ev : TraceEvent) : Prop :=
  (ev.fired = true ↔
    interval ≤ ev.step ∧ interval ≤ endT ∧ ev.step % interval = 0) ∧
  (ev.fired = true → ev.gAfter =
    (RkSP.update_road_attributes env ev.gBefore ev.step
      (interval == ev.step) delta).1) ∧
  (ev.fired = false → ev.gAfter = ev.gBefore)

/-!
## The run-loop cycle condition and the per-cycle weight smoothing
-/
/-- Two simulated vehicles-expected steps, then the loop guard fails. -/
def envLoop : Env :=
  { envEmpty with minExpected := fun t => if t ≤ 2 then 1 else 0 }

/-- The empty road graph. -/
def gEmpty : Graph := ⟨[], []⟩

/-- Four active steps; the adapted travel time is `10` at step 2 and `20`
afterwards. -/
def envRun2 : Env := { envEmpty with
  minExpected := fun t => if t ≤ 4 then 1 else 0,
  adaptedTraveltime := fun t _ => if t = 2 then 10 else 20 }

/-- `gAB` after the step-2 raw sample: the single edge carries weight 10. -/
def gABw10 : Graph := ⟨["a", "b"], [(("a", "b"), ⟨100, 10, 10⟩)]⟩

/-!
## Bounded candidate selection
-/
def gBfs : Graph :=
  ⟨["r", ":j", "w"], [((":j", "r"), ⟨1, 1, 0⟩), (("w", ":j"), ⟨1, 1, 0⟩)]⟩

def envB : Env := { envEmpty with
  lastStepVehicleIDs := fun t road => if road = "w" then ["veh1"] else [] }

def envSel : Env := { envEmpty with
  lastStepVehicleIDs := fun t road => if road = "a" then ["v1"] else [] }

def stepAll (succ : String → List String) (f : List String) : List String :=
  (f.map succ).flatten

def reachUpTo (succ : String → List String) :
    Nat → List String → List String
  | 0, f => f
  | n + 1, f => f ++ reachUpTo succ n (stepAll succ f)

def levelOk (succ : String → List String) (root : String) (c : Nat)
    (b : List String) (u : String) : Prop :=
  (u ∈ b ∧ u ∈ reachUpTo succ (c + 1) [root]) ∨
  u ∈ reachUpTo succ c [root]


/-!
## Helper lemmas
-/
theorem mem_setAdd {α : Type} [DecidableEq α] {x y : α} {l : List α} :
    x ∈ setAdd y l ↔ x = y ∨ x ∈ l := by
  unfold setAdd
  split
  · rename_i h
    constructor
    · exact fun hx => Or.inr hx
    · rintro (rfl | hx)
      · exact h
      · exact hx
  · simp [List.mem_append, or_comm]

theorem mem_listUnion {x : String} {a b : List String} :
    x ∈ listUnion a b ↔ x ∈ a ∨ x ∈ b := by
  simp only [listUnion, List.mem_append, List.mem_filter, decide_eq_true_eq]
  by_cases h : x ∈ a <;> simp [h]

theorem wwEntry_fst (tt : ℚ) (b : Bool) (road : String)
    (e : (String × String) × EdgeAttr) : (wwEntry tt b road e).1 = e.1 := by
  unfold wwEntry
  split <;> rfl

theorem succ_weightWrite (tt : ℚ) (b : Bool) (road : String)
    (n : List String) (edges : List ((String × String) × EdgeAttr))
    (r : String) :
    Graph.succ ⟨n, weightWrite tt b road edges⟩ r =
      Graph.succ ⟨n, edges⟩ r := by
  unfold Graph.succ weightWrite
  rw [List.filterMap_map]
  congr 1
  funext e
  show (if (wwEntry tt b road e).1.1 == r then some (wwEntry tt b road e).1.2
    else none) = _
  rw [wwEntry_fst]

theorem find?_weightWrite (tt : ℚ) (b : Bool) (road : String)
    (edges : List ((String × String) × EdgeAttr)) (r s : String) :
    (weightWrite tt b road edges).find? (fun e => e.1.1 == r && e.1.2 == s) =
      (edges.find? (fun e => e.1.1 == r && e.1.2 == s)).map
        (wwEntry tt b road) := by
  unfold weightWrite
  rw [List.find?_map]
  have hpf : ((fun (e : (String × String) × EdgeAttr) =>
      e.1.1 == r && e.1.2 == s) ∘ wwEntry tt b road) =
      (fun e => e.1.1 == r && e.1.2 == s) := by
    funext e
    show ((wwEntry tt b road e).1.1 == r && (wwEntry tt b road e).1.2 == s) = _
    rw [wwEntry_fst]
  rw [hpf]

theorem attr?_weightWrite_ne (tt : ℚ) (b : Bool) (road : String)
    (n : List String) (edges : List ((String × String) × EdgeAttr))
    {r : String} (s : String) (hne : road ≠ r) :
    Graph.attr? ⟨n, weightWrite tt b road edges⟩ r s =
      Graph.attr? ⟨n, edges⟩ r s := by
  unfold Graph.attr?
  show ((weightWrite tt b road edges).find? _).map _ =
    (edges.find? _).map _
  rw [find?_weightWrite]
  cases hfind : edges.find? (fun e => e.1.1 == r && e.1.2 == s) with
  | none => rfl
  | some e =>
    have hp := List.find?_some hfind
    have h1 : e.1.1 = r := eq_of_beq ((Bool.and_eq_true _ _).mp hp).1
    have h2 : (e.1.1 == road) = false := by
      rw [h1]
      exact beq_false_of_ne (fun hrr => hne hrr.symm)
    show some (wwEntry tt b road e).2 = some e.2
    unfold wwEntry
    rw [h2]
    rfl

theorem attr?_weightWrite_eq (tt : ℚ) (b : Bool) (road : String)
    (n : List String) (edges : List ((String × String) × EdgeAttr))
    (s : String) :
    Graph.attr? ⟨n, weightWrite tt b road edges⟩ road s =
      (Graph.attr? ⟨n, edges⟩ road s).map (fun a =>
        { a with weight := if b then tt else smoothWeight a.weight tt }) := by
  unfold Graph.attr?
  show ((weightWrite tt b road edges).find? _).map _ =
    ((edges.find? _).map _).map _
  rw [find?_weightWrite]
  cases hfind : edges.find? (fun e => e.1.1 == road && e.1.2 == s) with
  | none => rfl
  | some e =>
    have hp := List.find?_some hfind
    have h1 : (e.1.1 == road) = true := ((Bool.and_eq_true _ _).mp hp).1
    show some (wwEntry tt b road e).2 = _
    unfold wwEntry
    rw [h1]
    rfl

theorem speed_weightWrite (tt : ℚ) (b : Bool) (road : String)
    (n : List String) (edges : List ((String × String) × EdgeAttr))
    (r s : String) :
    (Graph.attrD ⟨n, weightWrite tt b road edges⟩ r s).speed =
      (Graph.attrD ⟨n, edges⟩ r s).speed := by
  unfold Graph.attrD
  by_cases h : road = r
  · subst h
    rw [attr?_weightWrite_eq tt b road n edges s]
    cases Graph.attr? ⟨n, edges⟩ road s <;> rfl
  · rw [attr?_weightWrite_ne tt b road n edges s h]

theorem succ_nodes_irrel (n m : List String)
    (edges : List ((String × String) × EdgeAttr)) (r : String) :
    Graph.succ ⟨n, edges⟩ r = Graph.succ ⟨m, edges⟩ r := rfl

theorem attrD_nodes_irrel (n m : List String)
    (edges : List ((String × String) × EdgeAttr)) (r s : String) :
    Graph.attrD ⟨n, edges⟩ r s = Graph.attrD ⟨m, edges⟩ r s := rfl
namespace EBkSP

theorem congCond_weightWrite (env : Env) (time : Nat) (delta : ℚ)
    (tt : ℚ) (b : Bool) (road : String)
    (edges : List ((String × String) × EdgeAttr)) (x : String) :
    congCond env time delta (weightWrite tt b road edges) x ↔
      congCond env time delta edges x := by
  unfold congCond
  rw [succ_weightWrite tt b road [] edges x]
  apply exists_congr
  intro s
  rw [speed_weightWrite tt b road [] edges x s]

theorem statsStep_foldl_mem (env : Env) (time : Nat) (delta : ℚ)
    (road : String) (edges : List ((String × String) × EdgeAttr))
    (avl : ℚ) :
    ∀ (succs : List String) (c : List String) (cs : ℚ) (cnt : Nat)
      (x : String),
    (x ∈ (succs.foldl
        (statsStep delta road edges (meanSpeed env time road) avl)
        (c, cs, cnt)).1 ↔
      x ∈ c ∨ (x = road ∧ ∃ s ∈ succs,
        meanSpeed env time road / (Graph.attrD ⟨[], edges⟩ road s).speed <
          delta))
  | [], c, cs, cnt, x => by simp
  | s :: rest, c, cs, cnt, x => by
    have hstep : statsStep delta road edges (meanSpeed env time road) avl
        (c, cs, cnt) s =
        (if meanSpeed env time road /
            (Graph.attrD ⟨[], edges⟩ road s).speed < delta
          then setAdd road c else c,
         cs + (Graph.attrD ⟨[], edges⟩ road s).length / (avl + MIN_GAP),
         cnt + 1) := rfl
    rw [List.foldl_cons, hstep]
    by_cases hc :
        meanSpeed env time road / (Graph.attrD ⟨[], edges⟩ road s).speed <
          delta
    · rw [if_pos hc,
        statsStep_foldl_mem env time delta road edges avl rest _ _ _ x]
      simp only [mem_setAdd, List.mem_cons]
      constructor
      · rintro ((rfl | hx) | ⟨rfl, s2, hs2, hlt⟩)
        · exact Or.inr ⟨rfl, s, Or.inl rfl, hc⟩
        · exact Or.inl hx
        · exact Or.inr ⟨rfl, s2, Or.inr hs2, hlt⟩
      · rintro (hx | ⟨rfl, s2, (rfl | hs2), hlt⟩)
        · exact Or.inl (Or.inr hx)
        · exact Or.inl (Or.inl rfl)
        · exact Or.inr ⟨rfl, s2, hs2, hlt⟩
    · rw [if_neg hc,
        statsStep_foldl_mem env time delta road edges avl rest _ _ _ x]
      simp only [List.mem_cons]
      constructor
      · rintro (hx | ⟨rfl, s2, hs2, hlt⟩)
        · exact Or.inl hx
        · exact Or.inr ⟨rfl, s2, Or.inr hs2, hlt⟩
      · rintro (hx | ⟨rfl, s2, (rfl | hs2), hlt⟩)
        · exact Or.inl hx
        · exact absurd hlt hc
        · exact Or.inr ⟨rfl, s2, hs2, hlt⟩

theorem roadPass_fst (env : Env) (time : Nat) (b : Bool) (delta : ℚ)
    (edges : List ((String × String) × EdgeAttr)) (c : List String)
    (cs : ℚ) (cnt : Nat) (road : String) :
    (roadPass env time b delta (edges, c, cs, cnt) road).1 =
      if isInternal road then edges
      else weightWrite (sampleTravelTime env time road) b road edges := by
  unfold roadPass
  by_cases h : isInternal road <;> simp [h]

theorem roadPass_congested_mem (env : Env) (time : Nat) (b : Bool)
    (delta : ℚ) (edges : List ((String × String) × EdgeAttr))
    (c : List String) (cs : ℚ) (cnt : Nat) (road x : String) :
    x ∈ (roadPass env time b delta (edges, c, cs, cnt) road).2.1 ↔
      x ∈ c ∨ (¬isInternal road ∧ x = road ∧
        congCond env time delta edges road) := by
  unfold roadPass
  by_cases h : isInternal road
  · rw [if_pos h]
    simp [h]
  · rw [if_neg h]
    show x ∈ ((Graph.succ ⟨[], edges⟩ road).foldl _ (c, cs, cnt)).1 ↔ _
    rw [statsStep_foldl_mem]
    unfold congCond
    simp [h]

theorem foldl_roadPass_congested_mem (env : Env) (time : Nat) (b : Bool)
    (delta : ℚ) :
    ∀ (ns : List String) (edges : List ((String × String) × EdgeAttr))
      (c : List String) (cs : ℚ) (cnt : Nat) (x : String),
    (x ∈ (ns.foldl (roadPass env time b delta) (edges, c, cs, cnt)).2.1 ↔
      x ∈ c ∨ (x ∈ ns ∧ ¬isInternal x ∧
        congCond env time delta edges x))
  | [], edges, c, cs, cnt, x => by simp
  | road :: rest, edges, c, cs, cnt, x => by
    rw [List.foldl_cons]
    have hsplit : roadPass env time b delta (edges, c, cs, cnt) road =
        ((roadPass env time b delta (edges, c, cs, cnt) road).1,
         (roadPass env time b delta (edges, c, cs, cnt) road).2.1,
         (roadPass env time b delta (edges, c, cs, cnt) road).2.2.1,
         (roadPass env time b delta (edges, c, cs, cnt) road).2.2.2) := rfl
    rw [hsplit,
      foldl_roadPass_congested_mem env time b delta rest _ _ _ _ x]
    have hcondEq : ∀ y : String,
        congCond env time delta
          (roadPass env time b delta (edges, c, cs, cnt) road).1 y ↔
        congCond env time delta edges y := by
      intro y
      rw [roadPass_fst]
      by_cases h : isInternal road
      · rw [if_pos h]
      · rw [if_neg h, congCond_weightWrite]
    rw [roadPass_congested_mem]
    simp only [hcondEq, List.mem_cons]
    constructor
    · rintro ((hx | ⟨hroad, rfl, hcC⟩) | ⟨hxr, hint, hcC⟩)
      · exact Or.inl hx
      · exact Or.inr ⟨Or.inl rfl, hroad, hcC⟩
      · exact Or.inr ⟨Or.inr hxr, hint, hcC⟩
    · rintro (hx | ⟨rfl | hxr, hint, hcC⟩)
      · exact Or.inl (Or.inl hx)
      · exact Or.inl (Or.inr ⟨hint, rfl, hcC⟩)
      · exact Or.inr ⟨hxr, hint, hcC⟩

/-- Membership characterization of the congested set computed by
`EBkSP.update_road_attributes`: exactly the non-internal graph nodes with
some outgoing edge whose mean-occupant-speed over speed-limit ratio is
strictly below `delta`. -/
theorem mem_congested_update (env : Env) (g : Graph) (time : Nat)
    (b : Bool) (delta : ℚ) (x : String) :
    x ∈ (update_road_attributes env g time b delta).2.1 ↔
      x ∈ g.nodes ∧ ¬isInternal x ∧
        ∃ s ∈ g.succ x,
          meanSpeed env time x / (g.attrD x s).speed < delta := by
  unfold update_road_attributes
  show x ∈ (g.nodes.foldl _ (g.edges, [], 0, 0)).2.1 ↔ _
  rw [foldl_roadPass_congested_mem]
  unfold congCond
  constructor
  · rintro (hx | ⟨hmem, hint, hcC⟩)
    · cases hx
    · exact ⟨hmem, hint, hcC⟩
  · rintro ⟨hmem, hint, hcC⟩
    exact Or.inr ⟨hmem, hint, hcC⟩
end EBkSP
namespace RkSP

theorem congStep_foldl_mem (env : Env) (time : Nat) (delta : ℚ)
    (road : String) (edges : List ((String × String) × EdgeAttr)) :
    ∀ (succs : List String) (c : List String) (x : String),
    (x ∈ succs.foldl (congStep delta road edges (meanSpeed env time road)) c
      ↔ x ∈ c ∨ (x = road ∧ ∃ s ∈ succs,
        meanSpeed env time road / (Graph.attrD ⟨[], edges⟩ road s).speed >
          delta))
  | [], c, x => by simp
  | s :: rest, c, x => by
    have hstep : congStep delta road edges (meanSpeed env time road) c s =
        (if meanSpeed env time road /
            (Graph.attrD ⟨[], edges⟩ road s).speed > delta
          then setAdd road c else c) := rfl
    rw [List.foldl_cons, hstep]
    by_cases hc :
        meanSpeed env time road / (Graph.attrD ⟨[], edges⟩ road s).speed >
          delta
    · rw [if_pos hc, congStep_foldl_mem env time delta road edges rest _ x]
      simp only [mem_setAdd, List.mem_cons]
      constructor
      · rintro ((rfl | hx) | ⟨rfl, s2, hs2, hlt⟩)
        · exact Or.inr ⟨rfl, s, Or.inl rfl, hc⟩
        · exact Or.inl hx
        · exact Or.inr ⟨rfl, s2, Or.inr hs2, hlt⟩
      · rintro (hx | ⟨rfl, s2, (rfl | hs2), hlt⟩)
        · exact Or.inl (Or.inr hx)
        · exact Or.inl (Or.inl rfl)
        · exact Or.inr ⟨rfl, s2, hs2, hlt⟩
    · rw [if_neg hc, congStep_foldl_mem env time delta road edges rest _ x]
      simp only [List.mem_cons]
      constructor
      · rintro (hx | ⟨rfl, s2, hs2, hlt⟩)
        · exact Or.inl hx
        · exact Or.inr ⟨rfl, s2, Or.inr hs2, hlt⟩
      · rintro (hx | ⟨rfl, s2, (rfl | hs2), hlt⟩)
        · exact Or.inl hx
        · exact absurd hlt hc
        · exact Or.inr ⟨rfl, s2, hs2, hlt⟩

theorem congCondR_weightWrite (env : Env) (time : Nat) (delta : ℚ)
    (tt : ℚ) (b : Bool) (road : String)
    (edges : List ((String × String) × EdgeAttr)) (x : String) :
    congCondR env time delta (weightWrite tt b road edges) x ↔
      congCondR env time delta edges x := by
  unfold congCondR
  rw [succ_weightWrite tt b road [] edges x]
  apply exists_congr
  intro s
  rw [speed_weightWrite tt b road [] edges x s]

theorem roadPass_fst_rk (env : Env) (time : Nat) (b : Bool) (delta : ℚ)
    (edges : List ((String × String) × EdgeAttr)) (c : List String)
    (road : String) :
    (roadPass env time b delta (edges, c) road).1 =
      if isInternal road then edges
      else weightWrite (sampleTravelTime env time road) b road edges := by
  unfold roadPass
  by_cases h : isInternal road <;> simp [h]

theorem roadPass_congested_mem_rk (env : Env) (time : Nat) (b : Bool)
    (delta : ℚ) (edges : List ((String × String) × EdgeAttr))
    (c : List String) (road x : String) :
    x ∈ (roadPass env time b delta (edges, c) road).2 ↔
      x ∈ c ∨ (¬isInternal road ∧ x = road ∧
        congCondR env time delta edges road) := by
  unfold roadPass
  by_cases h : isInternal road
  · rw [if_pos h]
    simp [h]
  · rw [if_neg h]
    show x ∈ (Graph.succ ⟨[], edges⟩ road).foldl _ c ↔ _
    rw [congStep_foldl_mem]
    unfold congCondR
    simp [h]

theorem foldl_roadPass_congested_mem_rk (env : Env) (time : Nat) (b : Bool)
    (delta : ℚ) :
    ∀ (ns : List String) (edges : List ((String × String) × EdgeAttr))
      (c : List String) (x : String),
    (x ∈ (ns.foldl (roadPass env time b delta) (edges, c)).2 ↔
      x ∈ c ∨ (x ∈ ns ∧ ¬isInternal x ∧
        congCondR env time delta edges x))
  | [], edges, c, x => by simp
  | road :: rest, edges, c, x => by
    rw [List.foldl_cons]
    have hsplit : roadPass env time b delta (edges, c) road =
        ((roadPass env time b delta (edges, c) road).1,
         (roadPass env time b delta (edges, c) road).2) := rfl
    rw [hsplit, foldl_roadPass_congested_mem_rk env time b delta rest _ _ x]
    have hcondEq : ∀ y : String,
        congCondR env time delta
          (roadPass env time b delta (edges, c) road).1 y ↔
        congCondR env time delta edges y := by
      intro y
      rw [roadPass_fst_rk]
      by_cases h : isInternal road
      · rw [if_pos h]
      · rw [if_neg h, congCondR_weightWrite]
    rw [roadPass_congested_mem_rk]
    simp only [hcondEq, List.mem_cons]
    constructor
    · rintro ((hx | ⟨hroad, rfl, hcC⟩) | ⟨hxr, hint, hcC⟩)
      · exact Or.inl hx
      · exact Or.inr ⟨Or.inl rfl, hroad, hcC⟩
      · exact Or.inr ⟨Or.inr hxr, hint, hcC⟩
    · rintro (hx | ⟨rfl | hxr, hint, hcC⟩)
      · exact Or.inl (Or.inl hx)
      · exact Or.inl (Or.inr ⟨hint, rfl, hcC⟩)
      · exact Or.inr ⟨hxr, hint, hcC⟩

/-- Membership characterization of the congested set computed by
`RkSP.update_road_attributes`: exactly the non-internal graph nodes with
some outgoing edge whose mean-occupant-speed over speed-limit ratio is
strictly *above* `delta`. -/
theorem mem_congested_update_rk (env : Env) (g : Graph) (time : Nat)
    (b : Bool) (delta : ℚ) (x : String) :
    x ∈ (update_road_attributes env g time b delta).2 ↔
      x ∈ g.nodes ∧ ¬isInternal x ∧
        ∃ s ∈ g.succ x,
          meanSpeed env time x / (g.attrD x s).speed > delta := by
  unfold update_road_attributes
  show x ∈ (g.nodes.foldl _ (g.edges, [])).2 ↔ _
  rw [foldl_roadPass_congested_mem_rk]
  unfold congCondR
  constructor
  · rintro (hx | ⟨hmem, hint, hcC⟩)
    · cases hx
    · exact ⟨hmem, hint, hcC⟩
  · rintro ⟨hmem, hint, hcC⟩
    exact Or.inr ⟨hmem, hint, hcC⟩
end RkSP

/-- C3, counterexample: with one vehicle at full speed (ratio
`10 / 10 = 1`) and `delta = 1/2`, `RkSP.update_road_attributes` classifies
segment `"a"` as congested although no outgoing edge has ratio below
`delta` — refuting the claim that both variants classify congested exactly
when some ratio is below `delta`. -/
theorem rksp_congestion_above_delta :
    "a" ∈ (RkSP.update_road_attributes envFast gAB 1 true (1/2)).2 ∧
    ∀ s ∈ gAB.succ "a",
      ¬ (meanSpeed envFast 1 "a" / (gAB.attrD "a" s).speed < 1/2) := by
  have hsucc : gAB.succ "a" = ["b"] := rfl
  have hspeed : (gAB.attrD "a" "b").speed = 10 := rfl
  have hms : meanSpeed envFast 1 "a" = 10 := by
    simp [meanSpeed, envFast]
  have hratio : meanSpeed envFast 1 "a" / (gAB.attrD "a" "b").speed = 1 := by
    rw [hms, hspeed]
    norm_num
  constructor
  · rw [RkSP.mem_congested_update_rk]
    refine ⟨by decide, by decide, "b", by rw [hsucc]; exact List.mem_singleton.mpr rfl, ?_⟩
    rw [hratio]
    norm_num
  · intro s hs
    rw [hsucc, List.mem_singleton] at hs
    subst hs
    rw [hratio]
    norm_num

/-- C3, amended: congestion detection classifies a non-internal segment
with some outgoing edge as congested exactly when, for some outgoing edge,
the mean occupant speed over that edge's speed limit crosses `delta` — but
the two variants use opposite directions: `EBkSP` marks congested on ratio
strictly *below* `delta`, while `RkSP` marks congested on ratio strictly
*above* `delta`. -/
theorem congestion_direction_characterization (env : Env) (g : Graph)
    (time : Nat) (b : Bool) (delta : ℚ) (x : String) :
    (x ∈ (EBkSP.update_road_attributes env g time b delta).2.1 ↔
      x ∈ g.nodes ∧ ¬isInternal x ∧
        ∃ s ∈ g.succ x,
          meanSpeed env time x / (g.attrD x s).speed < delta) ∧
    (x ∈ (RkSP.update_road_attributes env g time b delta).2 ↔
      x ∈ g.nodes ∧ ¬isInternal x ∧
        ∃ s ∈ g.succ x,
          meanSpeed env time x / (g.attrD x s).speed > delta) :=
  ⟨EBkSP.mem_congested_update env g time b delta x,
   RkSP.mem_congested_update_rk env g time b delta x⟩

/-- C10: in the entropy-balanced variant, a non-internal segment with at
least one successor edge and no occupying vehicles has mean speed 0, so
for any `delta > 0` it is classified as congested.  The positive speed
limit keeps the statement inside Python's non-raising domain (a zero
speed limit would raise `ZeroDivisionError` there, while rational division
is total). -/
theorem empty_segment_congested (env : Env) (g : Graph) (time : Nat)
    (b : Bool) (delta : ℚ) (x s : String)
    (hmem : x ∈ g.nodes) (hint : ¬isInternal x)
    (hs : s ∈ g.succ x) (hempty : env.lastStepVehicleIDs time x = [])
    (hdelta : 0 < delta) (hspeed : 0 < (g.attrD x s).speed) :
    x ∈ (EBkSP.update_road_attributes env g time b delta).2.1 := by
  rw [EBkSP.mem_congested_update]
  refine ⟨hmem, hint, s, hs, ?_⟩
  have hms : meanSpeed env time x = 0 := by
    unfold meanSpeed
    rw [hempty]
    simp
  rw [hms, zero_div]
  exact hdelta

/-- Witness for C10 at a concrete input: segment `"a"` of `gAB` is empty
under `envEmpty` and is classified as congested for `delta = 1/2`. -/
theorem empty_segment_congested_witness :
    "a" ∈ (EBkSP.update_road_attributes envEmpty gAB 1 true (1/2)).2.1 :=
  empty_segment_congested envEmpty gAB 1 true (1/2) "a" "b"
    (by decide) (by decide) (by decide) (by decide)
    (by norm_num)
    (by rw [show (gAB.attrD "a" "b").speed = 10 from rfl]; norm_num)
namespace EBkSP

theorem urgencyOf_RCI (env : Env) (time : Nat) (g : Graph)
    (cr : List String) (v0 : String) :
    urgencyOf env time g cr "RCI" v0 =
      if (getRemTravelTime (env.vehicleRoute time v0) g cr).2 = 0
      then Except.error Err.zeroDivisionError
      else Except.ok (v0,
        ((getRemTravelTime (env.vehicleRoute time v0) g cr).1 -
          (getRemTravelTime (env.vehicleRoute time v0) g cr).2) /
          (getRemTravelTime (env.vehicleRoute time v0) g cr).2) := rfl

theorem urgMapM_error (env : Env) (time : Nat) (g : Graph)
    (cr : List String) :
    ∀ (vehicles : List String) (v : String), v ∈ vehicles →
    (getRemTravelTime (env.vehicleRoute time v) g cr).2 = 0 →
    vehicles.mapM (urgencyOf env time g cr "RCI") =
      Except.error Err.zeroDivisionError
  | [], v, hv, _ => absurd hv (List.not_mem_nil v)
  | v0 :: rest, v, hv, hz => by
    rw [List.mapM_cons]
    by_cases h0 : (getRemTravelTime (env.vehicleRoute time v0) g cr).2 = 0
    · have hf : urgencyOf env time g cr "RCI" v0 =
          Except.error Err.zeroDivisionError := by
        rw [urgencyOf_RCI, if_pos h0]
      rw [hf]
      rfl
    · have hf : urgencyOf env time g cr "RCI" v0 =
          Except.ok (v0,
            ((getRemTravelTime (env.vehicleRoute time v0) g cr).1 -
              (getRemTravelTime (env.vehicleRoute time v0) g cr).2) /
              (getRemTravelTime (env.vehicleRoute time v0) g cr).2) := by
        rw [urgencyOf_RCI, if_neg h0]
      have hv' : v ∈ rest := by
        rcases List.mem_cons.mp hv with rfl | h
        · exact absurd hz h0
        · exact h
      rw [hf, urgMapM_error env time g cr rest v hv' hz]
      rfl
end EBkSP

/-- C4, counterexample: a vehicle whose whole remaining route lies on
congested segments has `RemFFTT = 0`; in relative-urgency mode the source
divides by it and Python raises `ZeroDivisionError` — refuting the claim
that such a vehicle is treated as maximally urgent without a fatal
error. -/
theorem relative_urgency_zero_division :
    EBkSP.sort_by_urgency envFast 1 gAB ["v1"] "RCI" ["a"] =
      Except.error Err.zeroDivisionError := by
  have h := EBkSP.urgMapM_error envFast 1 gAB ["a"] ["v1"] "v1"
    (List.mem_singleton.mpr rfl) rfl
  unfold EBkSP.sort_by_urgency
  rw [h]

/-- C4, amended: whenever relative-urgency scoring (`"RCI"`) is selected
and some candidate vehicle has `RemFFTT = 0`, `sort_by_urgency` raises
`ZeroDivisionError` instead of treating the vehicle as maximally urgent;
the exception escapes the cycle (it is caught only by the top-level
handler in `start_simulation`, aborting the run). -/
theorem relative_urgency_error_aborts (env : Env) (time : Nat) (g : Graph)
    (cr : List String) (vehicles : List String) (v : String)
    (hv : v ∈ vehicles)
    (hz : (EBkSP.getRemTravelTime (env.vehicleRoute time v) g cr).2 = 0) :
    EBkSP.sort_by_urgency env time g vehicles "RCI" cr =
      Except.error Err.zeroDivisionError := by
  unfold EBkSP.sort_by_urgency
  rw [EBkSP.urgMapM_error env time g cr vehicles v hv hz]

/-- Witness for C4 at a concrete input: vehicle `"v1"` with route
`["a", "b"]` and congested set `["a"]` has `RemFFTT = 0`, and the relative
urgency sort aborts with `ZeroDivisionError`. -/
theorem relative_urgency_error_aborts_witness :
    EBkSP.sort_by_urgency envFast 1 gAB ["v1"] "RCI" ["a"] =
      Except.error Err.zeroDivisionError :=
  relative_urgency_error_aborts envFast 1 gAB ["a"] ["v1"] "v1"
    (List.mem_singleton.mpr rfl) rfl
namespace EBkSP

theorem urgencyOf_ACI (env : Env) (time : Nat) (g : Graph)
    (cr : List String) (v : String) :
    urgencyOf env time g cr "ACI" v =
      Except.ok (v, urgAbs env time g cr v) := rfl

theorem urgMapM_ACI (env : Env) (time : Nat) (g : Graph)
    (cr : List String) :
    ∀ vehicles : List String,
    vehicles.mapM (urgencyOf env time g cr "ACI") =
      Except.ok (vehicles.map (fun v => (v, urgAbs env time g cr v)))
  | [] => rfl
  | v0 :: rest => by
    rw [List.mapM_cons, urgencyOf_ACI, urgMapM_ACI env time g cr rest]
    rfl

theorem sort_by_urgency_ACI (env : Env) (time : Nat) (g : Graph)
    (cr : List String) (vehicles : List String) :
    sort_by_urgency env time g vehicles "ACI" cr =
      Except.ok ((List.insertionSort urgRel
        (vehicles.map (fun v => (v, urgAbs env time g cr v)))).map (·.1)) := by
  unfold sort_by_urgency
  rw [urgMapM_ACI]
end EBkSP

/-- C8: in absolute urgency mode (`"ACI"`), `sort_by_urgency` places a
vehicle `A` with strictly greater `RemTT − RemFFTT` before any vehicle `B`
with a smaller value: there are positions `i < j` of the output holding
`A` and `B` respectively. -/
theorem urgency_absolute_order (env : Env) (time : Nat) (g : Graph)
    (cr : List String) (vehicles out : List String) (A B : String)
    (hA : A ∈ vehicles) (hB : B ∈ vehicles)
    (hgt : EBkSP.urgAbs env time g cr B < EBkSP.urgAbs env time g cr A)
    (hout : EBkSP.sort_by_urgency env time g vehicles "ACI" cr =
      Except.ok out) :
    ∃ i j : Nat, i < j ∧ out.get? i = some A ∧ out.get? j = some B := by
  rw [EBkSP.sort_by_urgency_ACI] at hout
  set pairs := vehicles.map (fun v => (v, EBkSP.urgAbs env time g cr v))
    with hpairs
  set sorted := List.insertionSort EBkSP.urgRel pairs with hsorted
  have hout' : out = sorted.map (·.1) := by
    injection hout with h
    exact h.symm
  have hperm : List.Perm sorted pairs :=
    List.perm_insertionSort EBkSP.urgRel pairs
  have hsortedRel : List.Sorted EBkSP.urgRel sorted :=
    List.sorted_insertionSort EBkSP.urgRel pairs
  have hAmem : (A, EBkSP.urgAbs env time g cr A) ∈ sorted := by
    rw [hperm.mem_iff, hpairs]
    exact List.mem_map_of_mem _ hA
  have hBmem : (B, EBkSP.urgAbs env time g cr B) ∈ sorted := by
    rw [hperm.mem_iff, hpairs]
    exact List.mem_map_of_mem _ hB
  obtain ⟨iA, hiA⟩ := List.mem_iff_get.mp hAmem
  obtain ⟨iB, hiB⟩ := List.mem_iff_get.mp hBmem
  have hne : EBkSP.urgAbs env time g cr B ≠ EBkSP.urgAbs env time g cr A :=
    ne_of_lt hgt
  have hij : iA < iB := by
    rcases lt_trichotomy iA iB with h | h | h
    · exact h
    · exfalso
      apply hne
      have : sorted.get iA = sorted.get iB := by rw [h]
      rw [hiA, hiB] at this
      exact (congrArg Prod.snd this).symm
    · exfalso
      have hrel := hsortedRel.rel_get_of_lt h
      rw [hiA, hiB] at hrel
      exact absurd hrel (not_le.mpr hgt)
  subst hout'
  refine ⟨iA.1, iB.1, hij, ?_, ?_⟩
  · rw [List.get?_map, List.get?_eq_get iA.2, hiA]
    rfl
  · rw [List.get?_map, List.get?_eq_get iB.2, hiB]
    rfl

/-- Witness for C8 at a concrete input: with weights `w(a,b) = 4`,
vehicle `"u"` (route `[a, b]`, nothing congested on it) has urgency 0 and
vehicle `"w"` (route `[c, a, b]` with `c` congested) has positive urgency,
so `"w"` is placed before `"u"`. -/
theorem urgency_absolute_order_witness :
    ∃ i j : Nat, i < j ∧ (["w", "u"] : List String).get? i = some "w" ∧
      (["w", "u"] : List String).get? j = some "u" := by
  refine urgency_absolute_order envUrg 1 gUrg ["c"] ["u", "w"] ["w", "u"]
    "w" "u" (by decide) (by decide) ?_ ?_
  · show EBkSP.urgAbs envUrg 1 gUrg ["c"] "u" <
      EBkSP.urgAbs envUrg 1 gUrg ["c"] "w"
    have hu : EBkSP.urgAbs envUrg 1 gUrg ["c"] "u" =
        0 + 4 - (0 + 4) := rfl
    have hw : EBkSP.urgAbs envUrg 1 gUrg ["c"] "w" =
        0 + 3 + 4 - (0 + 4) := rfl
    rw [hu, hw]
    norm_num
  · rw [EBkSP.sort_by_urgency_ACI]
    congr 1
    have hpairs2 : (["u", "w"] : List String).map
        (fun v => (v, EBkSP.urgAbs envUrg 1 gUrg ["c"] v)) =
        [("u", 0 + 4 - (0 + 4)), ("w", 0 + 3 + 4 - (0 + 4))] := rfl
    rw [hpairs2]
    norm_num [List.insertionSort, List.orderedInsert, EBkSP.urgRel]
namespace RkSP

theorem rkspGo_cons (env : Env) (time : Nat) (pick : String → Nat)
    (ksp : Graph → String → String → Nat → List (List String)) (g : Graph)
    (K : Nat) (v0 : String) (rest : List String)
    (cmds : List (String × List String)) :
    rkspGo env time pick ksp g K (v0 :: rest) cmds =
      (if isInternal (env.vehicleRoadID time v0) then
        rkspGo env time pick ksp g K rest cmds
      else match (env.vehicleRoute time v0).getLast? with
        | none => Except.error Err.indexError
        | some destination =>
          if env.vehicleRoadID time v0 ≠ destination then
            match ksp g (env.vehicleRoadID time v0) destination K with
            | [] => Except.error Err.valueError
            | p :: ps =>
              rkspGo env time pick ksp g K rest
                (cmds ++ [(v0, (p :: ps).getD (pick v0 % (p :: ps).length) [])])
          else rkspGo env time pick ksp g K rest cmds) := rfl

theorem rkspGo_empty_error (env : Env) (time : Nat) (pick : String → Nat)
    (ksp : Graph → String → String → Nat → List (List String)) (g : Graph)
    (K : Nat) :
    ∀ (vehicles : List String) (cmds : List (String × List String))
      (v d : String),
    v ∈ vehicles →
    (∀ u ∈ vehicles, env.vehicleRoute time u ≠ []) →
    ¬isInternal (env.vehicleRoadID time v) →
    (env.vehicleRoute time v).getLast? = some d →
    env.vehicleRoadID time v ≠ d →
    ksp g (env.vehicleRoadID time v) d K = [] →
    rkspGo env time pick ksp g K vehicles cmds = Except.error Err.valueError
  | [], _, v, _, hv, _, _, _, _, _ => absurd hv (List.not_mem_nil v)
  | v0 :: rest, cmds, v, d, hv, hne, hint, hlast, hsd, hkempty => by
    rw [rkspGo_cons]
    have hne' : ∀ u ∈ rest, env.vehicleRoute time u ≠ [] :=
      fun u hu => hne u (List.mem_cons_of_mem v0 hu)
    by_cases hint0 : isInternal (env.vehicleRoadID time v0)
    · rw [if_pos hint0]
      have hv' : v ∈ rest := by
        rcases List.mem_cons.mp hv with rfl | h
        · exact absurd hint0 hint
        · exact h
      exact rkspGo_empty_error env time pick ksp g K rest cmds v d hv' hne'
        hint hlast hsd hkempty
    · rw [if_neg hint0]
      obtain ⟨d0, hlast0⟩ :
          ∃ y, (env.vehicleRoute time v0).getLast? = some y := by
        cases hcase : (env.vehicleRoute time v0).getLast? with
        | none =>
          exact absurd (List.getLast?_eq_none_iff.mp hcase)
            (hne v0 (List.mem_cons_self v0 rest))
        | some y => exact ⟨y, rfl⟩
      rw [hlast0]
      show (if env.vehicleRoadID time v0 ≠ d0 then
          match ksp g (env.vehicleRoadID time v0) d0 K with
          | [] => Except.error Err.valueError
          | p :: ps =>
            rkspGo env time pick ksp g K rest
              (cmds ++ [(v0, (p :: ps).getD (pick v0 % (p :: ps).length) [])])
        else rkspGo env time pick ksp g K rest cmds) =
          Except.error Err.valueError
      by_cases hsd0 : env.vehicleRoadID time v0 ≠ d0
      · rw [if_pos hsd0]
        cases hk0 : ksp g (env.vehicleRoadID time v0) d0 K with
        | nil => rfl
        | cons p ps =>
          have hv' : v ∈ rest := by
            rcases List.mem_cons.mp hv with rfl | h
            · rw [hlast] at hlast0
              cases hlast0
              rw [hkempty] at hk0
              cases hk0
            · exact h
          exact rkspGo_empty_error env time pick ksp g K rest _ v d hv'
            hne' hint hlast hsd hkempty
      · rw [if_neg hsd0]
        have hv' : v ∈ rest := by
          rcases List.mem_cons.mp hv with rfl | h
          · rw [hlast] at hlast0
            cases hlast0
            exact absurd hsd hsd0
          · exact h
        exact rkspGo_empty_error env time pick ksp g K rest cmds v d hv'
          hne' hint hlast hsd hkempty
end RkSP

/-- C5, counterexample: a vehicle whose origin-destination pair yields no
candidate path makes `rksp_reroute` raise `ValueError`
(`random.randrange(0, 0)` on the empty candidate list) instead of leaving
the route unchanged without a hard failure. -/
theorem rksp_empty_paths_failure :
    RkSP.rksp_reroute envFast 1 (fun _ => 0) kspNone ["v1"] gAB 3 =
      Except.error Err.valueError := rfl

/-- C5, amended: a vehicle whose origin-destination pair yields an empty
candidate-path list causes a hard failure in the rerouting step rather
than a no-op: `rksp_reroute` raises `ValueError` from
`random.randrange(0, len(k_paths))` on the empty list (and the exception
is caught only at top level, aborting the run).  Stated for vehicle lists
whose routes are non-empty (always true for simulator vehicles, and the
other failure mode `IndexError` on `route[-1]` is thereby excluded). -/
theorem empty_candidates_hard_failure (env : Env) (time : Nat)
    (pick : String → Nat)
    (ksp : Graph → String → String → Nat → List (List String)) (g : Graph)
    (K : Nat) (vehicles : List String) (v d : String)
    (hv : v ∈ vehicles)
    (hne : ∀ u ∈ vehicles, env.vehicleRoute time u ≠ [])
    (hint : ¬isInternal (env.vehicleRoadID time v))
    (hlast : (env.vehicleRoute time v).getLast? = some d)
    (hsd : env.vehicleRoadID time v ≠ d)
    (hkempty : ksp g (env.vehicleRoadID time v) d K = []) :
    RkSP.rksp_reroute env time pick ksp vehicles g K =
      Except.error Err.valueError :=
  RkSP.rkspGo_empty_error env time pick ksp g K vehicles [] v d hv hne hint
    hlast hsd hkempty

/-- Witness for C5 at a concrete input: vehicle `"v1"` on segment `"a"`
with destination `"b"` and an empty candidate list aborts the rerouting
step with `ValueError`. -/
theorem empty_candidates_hard_failure_witness :
    RkSP.rksp_reroute envFast 1 (fun _ => 0) kspNone ["v1"] gAB 3 =
      Except.error Err.valueError :=
  empty_candidates_hard_failure envFast 1 (fun _ => 0) kspNone gAB 3
    ["v1"] "v1" "b" (by decide) (by decide) (by decide) (by decide)
    (by decide) rfl
namespace EBkSP

theorem mem_updateODPairs_foldl (env : Env) (time : Nat) :
    ∀ (vehicles : List String) (acc : List (String × String))
      (p : String × String),
    (p ∈ vehicles.foldl (fun odPairs vehicle =>
        if isInternal (env.vehicleRoadID time vehicle) then odPairs
        else setAdd (env.vehicleRoadID time vehicle,
          (env.vehicleRoute time vehicle).getLast?.getD "") odPairs) acc ↔
      p ∈ acc ∨ ∃ u ∈ vehicles,
        ¬isInternal (env.vehicleRoadID time u) ∧
        p = (env.vehicleRoadID time u,
          (env.vehicleRoute time u).getLast?.getD ""))
  | [], acc, p => by simp
  | u0 :: rest, acc, p => by
    rw [List.foldl_cons]
    by_cases h0 : isInternal (env.vehicleRoadID time u0)
    · rw [if_pos h0, mem_updateODPairs_foldl env time rest acc p]
      simp only [List.mem_cons]
      constructor
      · rintro (hp | ⟨u, hu, hi, he⟩)
        · exact Or.inl hp
        · exact Or.inr ⟨u, Or.inr hu, hi, he⟩
      · rintro (hp | ⟨u, rfl | hu, hi, he⟩)
        · exact Or.inl hp
        · exact absurd h0 hi
        · exact Or.inr ⟨u, hu, hi, he⟩
    · rw [if_neg h0, mem_updateODPairs_foldl env time rest _ p]
      simp only [mem_setAdd, List.mem_cons]
      constructor
      · rintro ((he | hp) | ⟨u, hu, hi, he⟩)
        · exact Or.inr ⟨u0, Or.inl rfl, h0, he⟩
        · exact Or.inl hp
        · exact Or.inr ⟨u, Or.inr hu, hi, he⟩
      · rintro (hp | ⟨u, rfl | hu, hi, he⟩)
        · exact Or.inl (Or.inr hp)
        · exact Or.inl (Or.inl he)
        · exact Or.inr ⟨u, hu, hi, he⟩

theorem mem_updateODPairs (env : Env) (time : Nat) (vehicles : List String)
    (p : String × String) :
    p ∈ updateODPairs env time vehicles ↔
      ∃ u ∈ vehicles, ¬isInternal (env.vehicleRoadID time u) ∧
        p = (env.vehicleRoadID time u,
          (env.vehicleRoute time u).getLast?.getD "") := by
  unfold updateODPairs
  rw [mem_updateODPairs_foldl env time vehicles [] p]
  simp

theorem lookup_singleton_pair
    (q sd : String × String) (paths : List (List String)) :
    ([(sd, paths)] : List ((String × String) × List (List String))).lookup q
      = if q = sd then some paths else none := by
  by_cases h : q = sd
  · rw [if_pos h, h]
    simp [List.lookup]
  · rw [if_neg h]
    simp [List.lookup, beq_eq_false_iff_ne.mpr h]

theorem computeAll_lookup_mono
    (ksp : Graph → String → String → Nat → List (List String)) (g : Graph)
    (K : Nat) :
    ∀ (odPairs : List (String × String))
      (ap : List ((String × String) × List (List String)))
      (q : String × String),
    (ap.lookup q).isSome →
    ((computeAllkShortestPaths ksp g odPairs K ap).lookup q).isSome
  | [], ap, q, h => h
  | sd :: rest, ap, q, h => by
    unfold computeAllkShortestPaths
    rw [List.foldl_cons]
    show ((computeAllkShortestPaths ksp g rest K _).lookup q).isSome
    by_cases h1 : (ap.lookup sd).isSome
    · rw [if_pos h1]
      exact computeAll_lookup_mono ksp g K rest ap q h
    · rw [if_neg h1]
      by_cases h2 : sd.1 ≠ sd.2
      · rw [if_pos h2]
        apply computeAll_lookup_mono ksp g K rest _ q
        rw [List.lookup_append]
        rw [Option.isSome_iff_exists] at h
        obtain ⟨v, hv⟩ := h
        rw [hv]
        rfl
      · rw [if_neg h2]
        exact computeAll_lookup_mono ksp g K rest ap q h

theorem computeAll_lookup_isSome
    (ksp : Graph → String → String → Nat → List (List String)) (g : Graph)
    (K : Nat) :
    ∀ (odPairs : List (String × String))
      (ap : List ((String × String) × List (List String)))
      (q : String × String),
    q ∈ odPairs → q.1 ≠ q.2 →
    ((computeAllkShortestPaths ksp g odPairs K ap).lookup q).isSome
  | [], _, q, hq, _ => absurd hq (List.not_mem_nil q)
  | sd :: rest, ap, q, hq, hne => by
    unfold computeAllkShortestPaths
    rw [List.foldl_cons]
    show ((computeAllkShortestPaths ksp g rest K _).lookup q).isSome
    rcases List.mem_cons.mp hq with rfl | hq'
    · by_cases h1 : (ap.lookup q).isSome
      · rw [if_pos h1]
        exact computeAll_lookup_mono ksp g K rest ap q h1
      · rw [if_neg h1, if_pos hne]
        apply computeAll_lookup_mono ksp g K rest _ q
        rw [List.lookup_append, lookup_singleton_pair]
        rw [if_pos rfl]
        cases hcase : ap.lookup q with
        | none => rfl
        | some v =>
          rw [hcase] at h1
          exact absurd rfl h1
    · by_cases h1 : (ap.lookup sd).isSome
      · rw [if_pos h1]
        exact computeAll_lookup_isSome ksp g K rest ap q hq' hne
      · rw [if_neg h1]
        by_cases h2 : sd.1 ≠ sd.2
        · rw [if_pos h2]
          exact computeAll_lookup_isSome ksp g K rest _ q hq' hne
        · rw [if_neg h2]
          exact computeAll_lookup_isSome ksp g K rest ap q hq' hne

theorem computeAll_lookup_isSome_origin
    (ksp : Graph → String → String → Nat → List (List String)) (g : Graph)
    (K : Nat) :
    ∀ (odPairs : List (String × String))
      (ap : List ((String × String) × List (List String)))
      (q : String × String),
    ((computeAllkShortestPaths ksp g odPairs K ap).lookup q).isSome →
    (ap.lookup q).isSome ∨ q ∈ odPairs
  | [], ap, q, h => Or.inl h
  | sd :: rest, ap, q, h => by
    unfold computeAllkShortestPaths at h
    rw [List.foldl_cons] at h
    have h' : ((computeAllkShortestPaths ksp g rest K
        (if (ap.lookup sd).isSome then ap
         else if sd.1 ≠ sd.2 then ap ++ [(sd, ksp g sd.1 sd.2 K)]
         else ap)).lookup q).isSome := h
    rcases computeAll_lookup_isSome_origin ksp g K rest _ q h' with h2 | h2
    · by_cases h1 : (ap.lookup sd).isSome
      · rw [if_pos h1] at h2
        exact Or.inl h2
      · rw [if_neg h1] at h2
        by_cases h3 : sd.1 ≠ sd.2
        · rw [if_pos h3] at h2
          rw [List.lookup_append] at h2
          cases hcase : ap.lookup q with
          | some v => exact Or.inl rfl
          | none =>
            rw [hcase] at h2
            rw [lookup_singleton_pair] at h2
            by_cases h4 : q = sd
            · exact Or.inr (h4 ▸ List.mem_cons_self sd rest)
            · rw [if_neg h4] at h2
              exact absurd h2 (by simp)
        · rw [if_neg h3] at h2
          exact Or.inl h2
    · exact Or.inr (List.mem_cons_of_mem sd h2)

theorem popStep_foldl_isSome (expF logF : ℚ → ℚ) (env : Env) (time : Nat)
    (g : Graph) (fp : List (String × Nat)) (avgCap : ℚ) :
    ∀ (paths : List (List String))
      (st : Option (List String) × WithTop ℚ),
    st.1.isSome →
    ((paths.foldl (popStep expF logF env time g fp avgCap) st).1).isSome
  | [], _, h => h
  | path :: rest, st, h => by
    rw [List.foldl_cons]
    apply popStep_foldl_isSome expF logF env time g fp avgCap rest
    unfold popStep
    by_cases hc : ((computePopularity expF logF env time g path fp avgCap :
        ℚ) : WithTop ℚ) ≤ st.2
    · rw [if_pos hc]
      rfl
    · rw [if_neg hc]
      exact h

theorem getLeastPopularPath_isSome (expF logF : ℚ → ℚ) (env : Env)
    (time : Nat) (g : Graph) (p : List String) (ps : List (List String))
    (fp : List (String × Nat)) (avgCap : ℚ) :
    (getLeastPopularPath expF logF env time g (p :: ps) fp avgCap).isSome := by
  unfold getLeastPopularPath
  rw [List.foldl_cons]
  apply popStep_foldl_isSome
  unfold popStep
  rw [if_pos le_top]
  rfl

theorem ebkspGo_cons (expF logF : ℚ → ℚ) (env : Env) (time : Nat)
    (g : Graph) (allPaths : List ((String × String) × List (List String)))
    (avgCap : ℚ) (vehicle : String) (rest : List String) (first : Bool)
    (fp : List (String × Nat)) (cmds : List (String × List String)) :
    ebkspGo expF logF env time g allPaths avgCap (vehicle :: rest) first fp
        cmds =
      (match (env.vehicleRoute time vehicle).getLast? with
      | none => Except.error Err.indexError
      | some destination =>
        if env.vehicleRoadID time vehicle ≠ destination then
          match allPaths.lookup (env.vehicleRoadID time vehicle,
              destination) with
          | none => Except.error (Err.keyError
              (env.vehicleRoadID time vehicle) destination)
          | some paths =>
            match (if first then paths.head?
              else getLeastPopularPath expF logF env time g paths fp
                avgCap) with
            | none => Except.error (if first then Err.indexError
                else Err.invalidRoute)
            | some newPath =>
              ebkspGo expF logF env time g allPaths avgCap rest false
                (newPath.foldl incrFootprint fp) (cmds ++ [(vehicle, newPath)])
        else ebkspGo expF logF env time g allPaths avgCap rest first fp
          cmds) := rfl

theorem ebkspGo_internal_keyError (expF logF : ℚ → ℚ) (env : Env)
    (time : Nat) (g : Graph)
    (allPaths : List ((String × String) × List (List String)))
    (avgCap : ℚ)
    (hvals : ∀ (q : String × String) (ps : List (List String)),
      allPaths.lookup q = some ps → ps ≠ []) :
    ∀ (pre : List String) (post : List String) (v dv : String)
      (first : Bool) (fp : List (String × Nat))
      (cmds : List (String × List String)),
    (∀ u ∈ pre, env.vehicleRoute time u ≠ []) →
    (∀ u du, u ∈ pre → (env.vehicleRoute time u).getLast? = some du →
      env.vehicleRoadID time u ≠ du →
      ((allPaths.lookup (env.vehicleRoadID time u, du)).isSome)) →
    (env.vehicleRoute time v).getLast? = some dv →
    env.vehicleRoadID time v ≠ dv →
    allPaths.lookup (env.vehicleRoadID time v, dv) = none →
    ebkspGo expF logF env time g allPaths avgCap (pre ++ v :: post) first
        fp cmds =
      Except.error (Err.keyError (env.vehicleRoadID time v) dv)
  | [], post, v, dv, first, fp, cmds, _, _, hlastv, hsdv, hnone => by
    rw [List.nil_append, ebkspGo_cons, hlastv]
    show (if env.vehicleRoadID time v ≠ dv then _ else _) = _
    rw [if_pos hsdv, hnone]
  | u :: pre', post, v, dv, first, fp, cmds, hne, hlook, hlastv, hsdv,
      hnone => by
    rw [List.cons_append, ebkspGo_cons]
    have hne' : ∀ w ∈ pre', env.vehicleRoute time w ≠ [] :=
      fun w hw => hne w (List.mem_cons_of_mem u hw)
    have hlook' : ∀ w dw, w ∈ pre' →
        (env.vehicleRoute time w).getLast? = some dw →
        env.vehicleRoadID time w ≠ dw →
        ((allPaths.lookup (env.vehicleRoadID time w, dw)).isSome) :=
      fun w dw hw => hlook w dw (List.mem_cons_of_mem u hw)
    obtain ⟨du, hlastu⟩ :
        ∃ y, (env.vehicleRoute time u).getLast? = some y := by
      cases hcase : (env.vehicleRoute time u).getLast? with
      | none =>
        exact absurd (List.getLast?_eq_none_iff.mp hcase)
          (hne u (List.mem_cons_self u pre'))
      | some y => exact ⟨y, rfl⟩
    rw [hlastu]
    show (if env.vehicleRoadID time u ≠ du then _ else _) = _
    by_cases hsdu : env.vehicleRoadID time u ≠ du
    · rw [if_pos hsdu]
      have hsome := hlook u du (List.mem_cons_self u pre') hlastu hsdu
      obtain ⟨paths, hpaths⟩ := Option.isSome_iff_exists.mp hsome
      rw [hpaths]
      obtain ⟨p, ps, rfl⟩ : ∃ q qs, paths = q :: qs := by
        cases paths with
        | nil => exact absurd rfl (hvals _ [] hpaths)
        | cons q qs => exact ⟨q, qs, rfl⟩
      cases first with
      | true =>
        exact ebkspGo_internal_keyError expF logF env time g allPaths
          avgCap hvals pre' post v dv false (p.foldl incrFootprint fp)
          (cmds ++ [(u, p)]) hne' hlook' hlastv hsdv hnone
      | false =>
        obtain ⟨np, hnp⟩ := Option.isSome_iff_exists.mp
          (getLeastPopularPath_isSome expF logF env time g p ps fp avgCap)
        show (match (if false = true then (p :: ps).head?
            else getLeastPopularPath expF logF env time g (p :: ps) fp
              avgCap) with
          | none => Except.error (if false = true then Err.indexError
              else Err.invalidRoute)
          | some newPath => ebkspGo expF logF env time g allPaths avgCap
              (pre' ++ v :: post) false (newPath.foldl incrFootprint fp)
              (cmds ++ [(u, newPath)])) =
          Except.error (Err.keyError (env.vehicleRoadID time v) dv)
        rw [hnp]
        exact ebkspGo_internal_keyError expF logF env time g allPaths
          avgCap hvals pre' post v dv false (np.foldl incrFootprint fp)
          (cmds ++ [(u, np)]) hne' hlook' hlastv hsdv hnone
    · rw [if_neg hsdu]
      exact ebkspGo_internal_keyError expF logF env time g allPaths avgCap
        hvals pre' post v dv first fp cmds hne' hlook' hlastv hsdv hnone
end EBkSP

/-- C9: if the sorted candidate list given to `ebksp_reroute` contains a
vehicle currently on an internal-junction segment (road ID starting with
`":"`) that differs from its route's last segment, and every earlier
vehicle in the list is skippable or servable, then the unguarded
`allPaths[(source, destination)]` lookup raises `KeyError` for that
vehicle: `updateODPairs` excludes internal-source pairs, so
`computeAllkShortestPaths` never caches them (assuming the carried-over
cache `prev` contains no internal-source key, which holds inductively over
the run).  The exception escapes `ebksp_reroute` and is caught only at the
top level, aborting the run. -/
theorem internal_source_keyerror (expF logF : ℚ → ℚ) (env : Env)
    (time : Nat) (g : Graph)
    (ksp : Graph → String → String → Nat → List (List String)) (K : Nat)
    (prev : List ((String × String) × List (List String))) (avgCap : ℚ)
    (pre post : List String) (v dv : String)
    (hne : ∀ u ∈ pre ++ v :: post, env.vehicleRoute time u ≠ [])
    (hpre : ∀ u ∈ pre, ¬isInternal (env.vehicleRoadID time u) ∨
      env.vehicleRoadID time u = (env.vehicleRoute time u).getLast?.getD "")
    (hclean : ∀ q : String × String, (prev.lookup q).isSome →
      ¬isInternal q.1)
    (hvals : ∀ (q : String × String) (ps : List (List String)),
      (EBkSP.computeAllkShortestPaths ksp g
        (EBkSP.updateODPairs env time (pre ++ v :: post)) K prev).lookup q =
        some ps → ps ≠ [])
    (hintv : isInternal (env.vehicleRoadID time v))
    (hlastv : (env.vehicleRoute time v).getLast? = some dv)
    (hsdv : env.vehicleRoadID time v ≠ dv) :
    EBkSP.ebksp_reroute expF logF env time g (pre ++ v :: post)
      (EBkSP.computeAllkShortestPaths ksp g
        (EBkSP.updateODPairs env time (pre ++ v :: post)) K prev) avgCap =
      Except.error (Err.keyError (env.vehicleRoadID time v) dv) := by
  have hnone : (EBkSP.computeAllkShortestPaths ksp g
      (EBkSP.updateODPairs env time (pre ++ v :: post)) K prev).lookup
      (env.vehicleRoadID time v, dv) = none := by
    cases hcase : (EBkSP.computeAllkShortestPaths ksp g
        (EBkSP.updateODPairs env time (pre ++ v :: post)) K prev).lookup
        (env.vehicleRoadID time v, dv) with
    | none => rfl
    | some ps =>
      exfalso
      have hsome : ((EBkSP.computeAllkShortestPaths ksp g
          (EBkSP.updateODPairs env time (pre ++ v :: post)) K prev).lookup
          (env.vehicleRoadID time v, dv)).isSome := by
        rw [hcase]
        rfl
      rcases EBkSP.computeAll_lookup_isSome_origin ksp g K _ prev _ hsome
        with h | h
      · exact hclean _ h hintv
      · rw [EBkSP.mem_updateODPairs] at h
        obtain ⟨u, _, hiu, hequ⟩ := h
        have : env.vehicleRoadID time v = env.vehicleRoadID time u :=
          congrArg Prod.fst hequ
        rw [this] at hintv
        exact hiu hintv
  apply EBkSP.ebkspGo_internal_keyError expF logF env time g _ avgCap hvals
    pre post v dv true [] []
  · exact fun u hu => hne u (List.mem_append_left _ hu)
  · intro u du hu hlastu hsdu
    have hnotint : ¬isInternal (env.vehicleRoadID time u) := by
      rcases hpre u hu with h | h
      · exact h
      · rw [hlastu] at h
        exact absurd h hsdu
    apply EBkSP.computeAll_lookup_isSome ksp g K _ prev _ _ hsdu
    rw [EBkSP.mem_updateODPairs]
    refine ⟨u, List.mem_append_left _ hu, hnotint, ?_⟩
    rw [hlastu]
    rfl
  · exact hlastv
  · exact hsdv
  · exact hnone

/-- Witness for C9 at a concrete input: the single vehicle `"x"` sits on
internal junction `":j"` with route `["a", "b"]`; its pair is never
cached, and the reroute aborts with `KeyError (":j", "b")`. -/
theorem internal_source_keyerror_witness :
    EBkSP.ebksp_reroute id id envInternal 1 gAB ["x"]
      (EBkSP.computeAllkShortestPaths kspNone gAB
        (EBkSP.updateODPairs envInternal 1 ["x"]) 3 []) 0 =
      Except.error (Err.keyError ":j" "b") := by
  have h := internal_source_keyerror id id envInternal 1 gAB kspNone 3 [] 0
    [] [] "x" "b"
    (by intro u hu hcon; exact List.noConfusion hcon)
    (by intro u hu; cases hu)
    (by intro q h; exact absurd h (by simp [List.lookup]))
    (by
      intro q ps h
      rw [show EBkSP.computeAllkShortestPaths kspNone gAB
        (EBkSP.updateODPairs envInternal 1 ([] ++ "x" :: [])) 3 [] =
        ([] : List ((String × String) × List (List String))) from rfl] at h
      exact Option.noConfusion h)
    (by decide) rfl (by decide)
  exact h

theorem lookup_mem :
    ∀ {l : List (String × Nat)} {a : String} {b : Nat},
    l.lookup a = some b → (a, b) ∈ l
  | [], _, _, h => by cases h
  | (k, v) :: rest, a, b, h => by
    by_cases hap : a == k
    · have heq : ((k, v) :: rest).lookup a = some v := by
        show (match a == k with
          | true => some v
          | false => rest.lookup a) = some v
        rw [hap]
      rw [heq] at h
      injection h with h2
      rw [eq_of_beq hap, h2]
      exact List.mem_cons_self _ _
    · have heq : ((k, v) :: rest).lookup a = rest.lookup a := by
        show (match a == k with
          | true => some v
          | false => rest.lookup a) = rest.lookup a
        rw [Bool.eq_false_iff.mpr hap]
      rw [heq] at h
      exact List.mem_cons_of_mem _ (lookup_mem h)
namespace EBkSP

theorem footprintN_foldl :
    ∀ (fp : List (String × Nat)) (acc : ℚ),
    fp.foldl (fun a kv => a + (kv.2 : ℚ)) acc =
      acc + (fp.map (fun kv => ((kv.2 : Nat) : ℚ))).sum
  | [], acc => by simp
  | kv :: rest, acc => by
    rw [List.foldl_cons, footprintN_foldl rest _]
    simp [add_assoc]

theorem footprintN_eq (fp : List (String × Nat)) :
    footprintN fp = (fp.map (fun kv => ((kv.2 : Nat) : ℚ))).sum := by
  unfold footprintN
  rw [footprintN_foldl]
  simp

theorem map_cast_nonneg (fp : List (String × Nat)) :
    ∀ x ∈ fp.map (fun kv => ((kv.2 : Nat) : ℚ)), 0 ≤ x := by
  intro x hx
  obtain ⟨kv, _, rfl⟩ := List.mem_map.mp hx
  exact Nat.cast_nonneg kv.2

theorem le_footprintN {fp : List (String × Nat)} {a : String} {n : Nat}
    (h : fp.lookup a = some n) : (n : ℚ) ≤ footprintN fp := by
  rw [footprintN_eq]
  exact List.single_le_sum (map_cast_nonneg fp) _
    (List.mem_map.mpr ⟨(a, n), lookup_mem h, rfl⟩)

theorem lookup_cons_eq (k : String) (v : Nat)
    (rest : List (String × Nat)) (a : String) :
    ((k, v) :: rest).lookup a = if a == k then some v else rest.lookup a := by
  show (match a == k with
    | true => some v
    | false => rest.lookup a) = _
  cases a == k <;> rfl

theorem footprintN_cons (k : String) (v : Nat)
    (rest : List (String × Nat)) :
    footprintN ((k, v) :: rest) = v + footprintN rest := by
  rw [footprintN_eq, footprintN_eq, List.map_cons, List.sum_cons]

theorem footprintN_nonneg (fp : List (String × Nat)) :
    0 ≤ footprintN fp := by
  rw [footprintN_eq]
  exact List.sum_nonneg (map_cast_nonneg fp)

theorem add_le_footprintN :
    ∀ (fp : List (String × Nat)) (a b : String) (na nb : Nat), a ≠ b →
    fp.lookup a = some na → fp.lookup b = some nb →
    (na : ℚ) + nb ≤ footprintN fp
  | [], _, _, _, _, _, ha, _ => by cases ha
  | (k, v) :: rest, a, b, na, nb, hab, ha, hb => by
    rw [lookup_cons_eq] at ha hb
    rw [footprintN_cons]
    by_cases hak : a == k
    · rw [if_pos hak] at ha
      have hbk : (b == k) = false := by
        rw [beq_eq_false_iff_ne]
        intro hcon
        exact hab ((eq_of_beq hak).trans hcon.symm)
      rw [hbk] at hb
      rw [if_neg Bool.false_ne_true] at hb
      injection ha with ha2
      rw [← ha2]
      exact add_le_add le_rfl (le_footprintN hb)
    · rw [if_neg hak] at ha
      by_cases hbk : b == k
      · rw [if_pos hbk] at hb
        injection hb with hb2
        rw [← hb2, add_comm]
        exact add_le_add le_rfl (le_footprintN ha)
      · rw [if_neg hbk] at hb
        have := add_le_footprintN rest a b na nb hab ha hb
        have hv : (0 : ℚ) ≤ v := Nat.cast_nonneg v
        linarith

theorem foldl_id {α β : Type} (f : β → α → β) :
    ∀ (l : List α) (acc : β), (∀ b x, f b x = b) → l.foldl f acc = acc
  | [], _, _ => rfl
  | x :: rest, acc, h => by
    rw [List.foldl_cons, h acc x, foldl_id f rest acc h]

theorem popOuter_zero (logF : ℚ → ℚ) (env : Env) (time : Nat) (g : Graph)
    (fp : List (String × Nat)) (avgCap N : ℚ) (road : String) (acc : ℚ)
    (h : fcD fp road = 0) :
    popOuter logF env time g fp avgCap N acc road = acc := by
  unfold popOuter
  apply foldl_id
  intro b s
  unfold popInner
  rw [if_pos (Or.inl h)]

theorem pathFold_zero (logF : ℚ → ℚ) (env : Env) (time : Nat) (g : Graph)
    (fp : List (String × Nat)) (avgCap N : ℚ) :
    ∀ (path : List String) (acc : ℚ), (∀ r ∈ path, fcD fp r = 0) →
    path.foldl (popOuter logF env time g fp avgCap N) acc = acc
  | [], _, _ => rfl
  | r :: rest, acc, h => by
    rw [List.foldl_cons,
      popOuter_zero logF env time g fp avgCap N r acc
        (h r (List.mem_cons_self r rest)),
      pathFold_zero logF env time g fp avgCap N rest acc
        (fun x hx => h x (List.mem_cons_of_mem r hx))]

theorem popInner_term (logF : ℚ → ℚ) (env : Env) (time : Nat) (g : Graph)
    (fp : List (String × Nat)) (avgCap N : ℚ) (road s : String) (acc2 : ℚ)
    (hfc : fcD fp road ≠ 0) (hcap : capacityOf env time g road s ≠ 0) :
    popInner logF env time g fp avgCap N road acc2 s =
      acc2 + avgCap / capacityOf env time g road s * fcD fp road / N *
        logF (fcD fp road / N) := by
  unfold popInner
  rw [if_neg (not_or.mpr ⟨hfc, hcap⟩)]

theorem popInner_foldl_eq (logF : ℚ → ℚ) (env : Env) (time : Nat)
    (g : Graph) (fp : List (String × Nat)) (avgCap N c : ℚ)
    (road : String) (hfc : fcD fp road ≠ 0) (hc : c ≠ 0) :
    ∀ (succs : List String) (acc : ℚ),
    (∀ s ∈ succs, capacityOf env time g road s = c) →
    succs.foldl (popInner logF env time g fp avgCap N road) acc =
      acc + (succs.length : ℚ) *
        (avgCap / c * fcD fp road / N * logF (fcD fp road / N))
  | [], acc, _ => by simp
  | s :: rest, acc, hcs => by
    rw [List.foldl_cons]
    have hs := hcs s (List.mem_cons_self s rest)
    rw [popInner_term logF env time g fp avgCap N road s acc hfc
      (by rw [hs]; exact hc), hs,
      popInner_foldl_eq logF env time g fp avgCap N c road hfc hc rest _
        (fun x hx => hcs x (List.mem_cons_of_mem s hx))]
    push_cast [List.length_cons]
    ring

theorem popOuter_le (logF : ℚ → ℚ) (env : Env) (time : Nat) (g : Graph)
    (fp : List (String × Nat)) (avgCap N c : ℚ) (road : String) (acc : ℚ)
    (hfc1 : 1 ≤ fcD fp road) (hfcN : fcD fp road ≤ N)
    (hcs : ∀ s ∈ g.succ road, capacityOf env time g road s = c)
    (hc : 0 < c) (havg : 0 < avgCap) (hN : 0 < N)
    (hlog1 : ∀ x : ℚ, 0 < x → x ≤ 1 → logF x ≤ 0) :
    popOuter logF env time g fp avgCap N acc road ≤ acc := by
  unfold popOuter
  rw [popInner_foldl_eq logF env time g fp avgCap N c road
    (by intro hcon; rw [hcon] at hfc1; norm_num at hfc1) (ne_of_gt hc)
    (g.succ road) acc hcs]
  have hratio1 : 0 < fcD fp road / N := by positivity
  have hratio2 : fcD fp road / N ≤ 1 := by
    rw [div_le_one hN]
    exact hfcN
  have hterm : avgCap / c * fcD fp road / N * logF (fcD fp road / N) ≤ 0 := by
    apply mul_nonpos_of_nonneg_of_nonpos
    · positivity
    · exact hlog1 _ hratio1 hratio2
  have hlen : (0 : ℚ) ≤ ((g.succ road).length : ℚ) := Nat.cast_nonneg _
  nlinarith

theorem popOuter_lt (logF : ℚ → ℚ) (env : Env) (time : Nat) (g : Graph)
    (fp : List (String × Nat)) (avgCap N c : ℚ) (road b : String)
    (acc : ℚ) (hb : b ∈ g.succ road)
    (hfc1 : 1 ≤ fcD fp road) (hfcN : fcD fp road < N)
    (hcs : ∀ s ∈ g.succ road, capacityOf env time g road s = c)
    (hc : 0 < c) (havg : 0 < avgCap) (hN : 0 < N)
    (hlog0 : ∀ x : ℚ, 0 < x → x < 1 → logF x < 0) :
    popOuter logF env time g fp avgCap N acc road < acc := by
  unfold popOuter
  rw [popInner_foldl_eq logF env time g fp avgCap N c road
    (by intro hcon; rw [hcon] at hfc1; norm_num at hfc1) (ne_of_gt hc)
    (g.succ road) acc hcs]
  have hratio1 : 0 < fcD fp road / N := by positivity
  have hratio2 : fcD fp road / N < 1 := by
    rw [div_lt_one hN]
    exact hfcN
  have hterm : avgCap / c * fcD fp road / N * logF (fcD fp road / N) < 0 := by
    apply mul_neg_of_pos_of_neg
    · positivity
    · exact hlog0 _ hratio1 hratio2
  have hlen : (1 : ℚ) ≤ ((g.succ road).length : ℚ) := by
    have := List.length_pos.mpr (List.ne_nil_of_mem hb)
    exact_mod_cast this
  nlinarith

theorem pathFold_le (logF : ℚ → ℚ) (env : Env) (time : Nat) (g : Graph)
    (fp : List (String × Nat)) (avgCap N c : ℚ)
    (hc : 0 < c) (havg : 0 < avgCap) (hN : 0 < N)
    (hlog1 : ∀ x : ℚ, 0 < x → x ≤ 1 → logF x ≤ 0) :
    ∀ (path : List String) (acc : ℚ),
    (∀ r ∈ path, 1 ≤ fcD fp r) → (∀ r ∈ path, fcD fp r ≤ N) →
    (∀ r ∈ path, ∀ s ∈ g.succ r, capacityOf env time g r s = c) →
    path.foldl (popOuter logF env time g fp avgCap N) acc ≤ acc
  | [], acc, _, _, _ => le_rfl
  | r :: rest, acc, h1, h2, h3 => by
    rw [List.foldl_cons]
    have hstep : popOuter logF env time g fp avgCap N acc r ≤ acc :=
      popOuter_le logF env time g fp avgCap N c r acc
        (h1 r (List.mem_cons_self r rest)) (h2 r (List.mem_cons_self r rest))
        (h3 r (List.mem_cons_self r rest)) hc havg hN hlog1
    have htail := pathFold_le logF env time g fp avgCap N c hc havg hN hlog1
      rest (popOuter logF env time g fp avgCap N acc r)
      (fun x hx => h1 x (List.mem_cons_of_mem r hx))
      (fun x hx => h2 x (List.mem_cons_of_mem r hx))
      (fun x hx => h3 x (List.mem_cons_of_mem r hx))
    exact le_trans htail hstep

theorem computePopularity_eq (expF logF : ℚ → ℚ) (env : Env) (time : Nat)
    (g : Graph) (path : List String) (fp : List (String × Nat))
    (avgCap : ℚ) :
    computePopularity expF logF env time g path fp avgCap =
      expF (-(path.foldl
        (popOuter logF env time g fp avgCap (footprintN fp)) 0)) := rfl

theorem fcD_lookup {fp : List (String × Nat)} {r : String}
    (h : 1 ≤ fcD fp r) :
    ∃ n : Nat, fp.lookup r = some n ∧ fcD fp r = (n : ℚ) := by
  cases hcase : fp.lookup r with
  | none =>
    exfalso
    have : fcD fp r = 0 := by
      unfold fcD
      rw [hcase]
      rfl
    rw [this] at h
    norm_num at h
  | some n =>
    refine ⟨n, rfl, ?_⟩
    unfold fcD
    rw [hcase]
    rfl
end EBkSP

/-- C7: given two candidate paths, one (`a :: b :: rest`, a path of the
graph: `b` succeeds `a`) whose segments all carry nonzero footprint and
another (`P0`) whose segments all carry zero footprint, with all successor
capacities of the loaded path equal to a positive constant `c` and a
positive mean capacity, the entropy-balanced chooser picks the
zero-footprint path — in either order of the candidate list.  `expF` and
`logF` model `math.exp` / `math.log` through the facts used: strict
monotonicity of `exp` and negativity of `log` on `(0, 1]`. -/
theorem entropy_prefers_zero_footprint (expF logF : ℚ → ℚ) (env : Env)
    (time : Nat) (g : Graph) (fp : List (String × Nat)) (avgCap c : ℚ)
    (P0 : List String) (a b : String) (rest : List String)
    (hexp : StrictMono expF)
    (hlog0 : ∀ x : ℚ, 0 < x → x < 1 → logF x < 0)
    (hlog1 : ∀ x : ℚ, 0 < x → x ≤ 1 → logF x ≤ 0)
    (hab : a ≠ b) (hsucc : b ∈ g.succ a)
    (hP1fp : ∀ r ∈ a :: b :: rest, 1 ≤ EBkSP.fcD fp r)
    (hP0fp : ∀ r ∈ P0, EBkSP.fcD fp r = 0)
    (hcaps : ∀ r ∈ a :: b :: rest, ∀ s ∈ g.succ r,
      EBkSP.capacityOf env time g r s = c)
    (hc : 0 < c) (havg : 0 < avgCap) :
    EBkSP.getLeastPopularPath expF logF env time g [P0, a :: b :: rest] fp
      avgCap = some P0 ∧
    EBkSP.getLeastPopularPath expF logF env time g [a :: b :: rest, P0] fp
      avgCap = some P0 := by
  set N := EBkSP.footprintN fp with hNdef
  have hfa : 1 ≤ EBkSP.fcD fp a := hP1fp a (List.mem_cons_self a _)
  have hfb : 1 ≤ EBkSP.fcD fp b :=
    hP1fp b (List.mem_cons_of_mem a (List.mem_cons_self b rest))
  obtain ⟨na, hna, hfaeq⟩ := EBkSP.fcD_lookup hfa
  obtain ⟨nb, hnb, hfbeq⟩ := EBkSP.fcD_lookup hfb
  have hfN : ∀ r ∈ a :: b :: rest, EBkSP.fcD fp r ≤ N := by
    intro r hr
    obtain ⟨n, hn, heq⟩ := EBkSP.fcD_lookup (hP1fp r hr)
    rw [heq]
    exact EBkSP.le_footprintN hn
  have hN : 0 < N :=
    lt_of_lt_of_le (by norm_num : (0 : ℚ) < 1)
      (le_trans hfa (hfN a (List.mem_cons_self a _)))
  have hfaN : EBkSP.fcD fp a < N := by
    have hsum : (na : ℚ) + nb ≤ N :=
      EBkSP.add_le_footprintN fp a b na nb hab hna hnb
    rw [hfaeq]
    rw [hfbeq] at hfb
    linarith
  have hsumlt : (a :: b :: rest).foldl
      (EBkSP.popOuter logF env time g fp avgCap N) 0 < 0 := by
    rw [List.foldl_cons]
    have hhead : EBkSP.popOuter logF env time g fp avgCap N 0 a < 0 :=
      EBkSP.popOuter_lt logF env time g fp avgCap N c a b 0 hsucc hfa hfaN
        (hcaps a (List.mem_cons_self a _)) hc havg hN hlog0
    have htail := EBkSP.pathFold_le logF env time g fp avgCap N c hc havg
      hN hlog1 (b :: rest) (EBkSP.popOuter logF env time g fp avgCap N 0 a)
      (fun x hx => hP1fp x (List.mem_cons_of_mem a hx))
      (fun x hx => hfN x (List.mem_cons_of_mem a hx))
      (fun x hx => hcaps x (List.mem_cons_of_mem a hx))
    exact lt_of_le_of_lt htail hhead
  have hpop0 : EBkSP.computePopularity expF logF env time g P0 fp avgCap =
      expF (-0) := by
    rw [EBkSP.computePopularity_eq,
      EBkSP.pathFold_zero logF env time g fp avgCap N P0 0 hP0fp]
  have hpop1 : EBkSP.computePopularity expF logF env time g
      (a :: b :: rest) fp avgCap =
      expF (-((a :: b :: rest).foldl
        (EBkSP.popOuter logF env time g fp avgCap N) 0)) := by
    rw [EBkSP.computePopularity_eq]
  have hlt : EBkSP.computePopularity expF logF env time g P0 fp avgCap <
      EBkSP.computePopularity expF logF env time g (a :: b :: rest) fp
        avgCap := by
    rw [hpop0, hpop1]
    apply hexp
    rw [neg_zero]
    exact neg_pos.mpr hsumlt
  constructor
  · show ((EBkSP.popStep expF logF env time g fp avgCap
      (EBkSP.popStep expF logF env time g fp avgCap
        (none, (⊤ : WithTop ℚ)) P0) (a :: b :: rest))).1 = some P0
    have h1 : EBkSP.popStep expF logF env time g fp avgCap
        (none, (⊤ : WithTop ℚ)) P0 =
        (some P0, ((EBkSP.computePopularity expF logF env time g P0 fp
          avgCap : ℚ) : WithTop ℚ)) := by
      unfold EBkSP.popStep
      rw [if_pos le_top]
    rw [h1]
    unfold EBkSP.popStep
    rw [if_neg]
    intro hcon
    rw [WithTop.coe_le_coe] at hcon
    exact absurd hcon (not_le.mpr hlt)
  · show ((EBkSP.popStep expF logF env time g fp avgCap
      (EBkSP.popStep expF logF env time g fp avgCap
        (none, (⊤ : WithTop ℚ)) (a :: b :: rest)) P0)).1 = some P0
    have h1 : EBkSP.popStep expF logF env time g fp avgCap
        (none, (⊤ : WithTop ℚ)) (a :: b :: rest) =
        (some (a :: b :: rest),
          ((EBkSP.computePopularity expF logF env time g (a :: b :: rest)
            fp avgCap : ℚ) : WithTop ℚ)) := by
      unfold EBkSP.popStep
      rw [if_pos le_top]
    rw [h1]
    unfold EBkSP.popStep
    rw [if_pos]
    exact WithTop.coe_le_coe.mpr (le_of_lt hlt)

/-- Witness for C7 at a concrete input: with `exp` and `log` instantiated
by the computable functions `id` and `x - 1` (which satisfy the facts the
theorem needs), the chooser picks the zero-footprint path `["x", "y"]`
over the loaded path `["a", "b"]` in both candidate orders. -/
theorem entropy_prefers_zero_footprint_witness :
    EBkSP.getLeastPopularPath id (fun x => x - 1) envPop 1 gPop
      [["x", "y"], ["a", "b"]] fpPop 1 = some ["x", "y"] ∧
    EBkSP.getLeastPopularPath id (fun x => x - 1) envPop 1 gPop
      [["a", "b"], ["x", "y"]] fpPop 1 = some ["x", "y"] := by
  have h := entropy_prefers_zero_footprint id (fun x => x - 1) envPop 1
    gPop fpPop 1 1 ["x", "y"] "a" "b" [] strictMono_id
    (by intro x h1 h2; show x - 1 < 0; linarith)
    (by intro x h1 h2; show x - 1 ≤ 0; linarith)
    (by decide) (by decide)
    (by
      intro r hr
      rcases List.mem_cons.mp hr with rfl | hr2
      · rw [show EBkSP.fcD fpPop "a" = ((1 : Nat) : ℚ) from rfl]
        norm_num
      · rcases List.mem_cons.mp hr2 with rfl | hr3
        · rw [show EBkSP.fcD fpPop "b" = ((1 : Nat) : ℚ) from rfl]
          norm_num
        · cases hr3)
    (by
      intro r hr
      rcases List.mem_cons.mp hr with rfl | hr2
      · rw [show EBkSP.fcD fpPop "x" = ((0 : Nat) : ℚ) from rfl]
        norm_num
      · rcases List.mem_cons.mp hr2 with rfl | hr3
        · rw [show EBkSP.fcD fpPop "y" = ((0 : Nat) : ℚ) from rfl]
          norm_num
        · cases hr3)
    (by
      intro r hr
      rcases List.mem_cons.mp hr with rfl | hr2
      · intro s hs
        rw [show gPop.succ "a" = ["b"] from rfl] at hs
        rcases List.mem_singleton.mp hs with rfl
        rw [show EBkSP.capacityOf envPop 1 gPop "a" "b" =
          5 / (5/2 + MIN_GAP) from rfl]
        norm_num [MIN_GAP]
      · rcases List.mem_cons.mp hr2 with rfl | hr3
        · intro s hs
          rw [show gPop.succ "b" = [] from rfl] at hs
          cases hs
        · cases hr3)
    (by norm_num) (by norm_num)
  exact h
namespace EBkSP

theorem roadPass_attr_ne (env : Env) (time : Nat) (b : Bool) (delta : ℚ)
    (edges : List ((String × String) × EdgeAttr)) (c : List String)
    (cs : ℚ) (cnt : Nat) (road : String) {r : String} (s : String)
    (m : List String) (hne : road ≠ r) :
    Graph.attr? ⟨m, (roadPass env time b delta (edges, c, cs, cnt)
      road).1⟩ r s = Graph.attr? ⟨m, edges⟩ r s := by
  rw [roadPass_fst]
  by_cases h : isInternal road
  · rw [if_pos h]
  · rw [if_neg h]
    exact attr?_weightWrite_ne (sampleTravelTime env time road) b road m
      edges s hne

theorem foldl_roadPass_attr_frame (env : Env) (time : Nat) (b : Bool)
    (delta : ℚ) (m : List String) (r s : String) :
    ∀ (ns : List String) (edges : List ((String × String) × EdgeAttr))
      (c : List String) (cs : ℚ) (cnt : Nat), r ∉ ns →
    Graph.attr? ⟨m, (ns.foldl (roadPass env time b delta)
      (edges, c, cs, cnt)).1⟩ r s = Graph.attr? ⟨m, edges⟩ r s
  | [], edges, c, cs, cnt, _ => rfl
  | road :: rest, edges, c, cs, cnt, hr => by
    rw [List.foldl_cons]
    have hsplit : roadPass env time b delta (edges, c, cs, cnt) road =
        ((roadPass env time b delta (edges, c, cs, cnt) road).1,
         (roadPass env time b delta (edges, c, cs, cnt) road).2.1,
         (roadPass env time b delta (edges, c, cs, cnt) road).2.2.1,
         (roadPass env time b delta (edges, c, cs, cnt) road).2.2.2) := rfl
    rw [hsplit, foldl_roadPass_attr_frame env time b delta m r s rest _ _ _
      _ (fun hcon => hr (List.mem_cons_of_mem road hcon))]
    exact roadPass_attr_ne env time b delta edges c cs cnt road s m
      (fun hcon => hr (hcon ▸ List.mem_cons_self road rest))

/-- The per-edge weight formula of one `update_road_attributes` call: for a
non-internal road appearing once in the node list, every present outgoing
edge keeps its static attributes and gets the raw sample
(`begin_of_cycle`) or the smoothed weight. -/
theorem update_attr (env : Env) (g : Graph) (time : Nat) (b : Bool)
    (delta : ℚ) (r s : String) (a : EdgeAttr)
    (hnd : g.nodes.Nodup) (hr : r ∈ g.nodes) (hint : ¬isInternal r)
    (ha : g.attr? r s = some a) :
    (update_road_attributes env g time b delta).1.attr? r s =
      some { a with weight :=
        if b then sampleTravelTime env time r
        else smoothWeight a.weight (sampleTravelTime env time r) } := by
  obtain ⟨l1, l2, hsplit⟩ := List.append_of_mem hr
  have hnd' := hsplit ▸ hnd
  have hr1 : r ∉ l1 := by
    intro hcon
    rw [List.nodup_append] at hnd'
    exact hnd'.2.2 hcon (List.mem_cons_self r l2)
  have hr2 : r ∉ l2 := by
    rw [List.nodup_append] at hnd'
    exact fun hcon => (List.nodup_cons.mp hnd'.2.1).1 hcon
  rw [show (update_road_attributes env g time b delta).1.attr? r s =
    Graph.attr? ⟨[], (g.nodes.foldl (roadPass env time b delta)
      (g.edges, [], 0, 0)).1⟩ r s from rfl]
  rw [hsplit, List.foldl_append, List.foldl_cons]
  rw [show l1.foldl (roadPass env time b delta) (g.edges, [], 0, 0) =
    ((l1.foldl (roadPass env time b delta) (g.edges, [], 0, 0)).1,
     (l1.foldl (roadPass env time b delta) (g.edges, [], 0, 0)).2.1,
     (l1.foldl (roadPass env time b delta) (g.edges, [], 0, 0)).2.2.1,
     (l1.foldl (roadPass env time b delta) (g.edges, [], 0, 0)).2.2.2)
    from rfl]
  rw [show roadPass env time b delta
      ((l1.foldl (roadPass env time b delta) (g.edges, [], 0, 0)).1,
       (l1.foldl (roadPass env time b delta) (g.edges, [], 0, 0)).2.1,
       (l1.foldl (roadPass env time b delta) (g.edges, [], 0, 0)).2.2.1,
       (l1.foldl (roadPass env time b delta) (g.edges, [], 0, 0)).2.2.2) r =
    ((roadPass env time b delta
      ((l1.foldl (roadPass env time b delta) (g.edges, [], 0, 0)).1,
       (l1.foldl (roadPass env time b delta) (g.edges, [], 0, 0)).2.1,
       (l1.foldl (roadPass env time b delta) (g.edges, [], 0, 0)).2.2.1,
       (l1.foldl (roadPass env time b delta) (g.edges, [], 0, 0)).2.2.2)
        r).1,
     (roadPass env time b delta
      ((l1.foldl (roadPass env time b delta) (g.edges, [], 0, 0)).1,
       (l1.foldl (roadPass env time b delta) (g.edges, [], 0, 0)).2.1,
       (l1.foldl (roadPass env time b delta) (g.edges, [], 0, 0)).2.2.1,
       (l1.foldl (roadPass env time b delta) (g.edges, [], 0, 0)).2.2.2)
        r).2.1,
     (roadPass env time b delta
      ((l1.foldl (roadPass env time b delta) (g.edges, [], 0, 0)).1,
       (l1.foldl (roadPass env time b delta) (g.edges, [], 0, 0)).2.1,
       (l1.foldl (roadPass env time b delta) (g.edges, [], 0, 0)).2.2.1,
       (l1.foldl (roadPass env time b delta) (g.edges, [], 0, 0)).2.2.2)
        r).2.2.1,
     (roadPass env time b delta
      ((l1.foldl (roadPass env time b delta) (g.edges, [], 0, 0)).1,
       (l1.foldl (roadPass env time b delta) (g.edges, [], 0, 0)).2.1,
       (l1.foldl (roadPass env time b delta) (g.edges, [], 0, 0)).2.2.1,
       (l1.foldl (roadPass env time b delta) (g.edges, [], 0, 0)).2.2.2)
        r).2.2.2) from rfl]
  rw [foldl_roadPass_attr_frame env time b delta [] r s l2 _ _ _ _ hr2]
  rw [roadPass_fst, if_neg hint]
  rw [attr?_weightWrite_eq (sampleTravelTime env time r) b r [] _ s]
  rw [foldl_roadPass_attr_frame env time b delta [] r s l1 _ _ _ _ hr1]
  rw [show Graph.attr? ⟨[], g.edges⟩ r s = g.attr? r s from rfl, ha]
  rfl

theorem runLoop_succ (expF logF : ℚ → ℚ)
    (ksp : Graph → String → String → Nat → List (List String)) (env : Env)
    (endT interval K : Nat) (delta : ℚ) (urgency : String) (level : Nat)
    (fuel step : Nat) (g : Graph)
    (allPaths : List ((String × String) × List (List String)))
    (trace : List TraceEvent) :
    runLoop expF logF ksp env endT interval K delta urgency level
      (fuel + 1) step g allPaths trace =
    (if step = 1 ∨ env.minExpected step > 0 then
      if interval ≤ step ∧ interval ≤ endT ∧ step % interval = 0 then
        if (update_road_attributes env g step (interval == step)
            delta).2.1 ≠ [] then
          match sort_by_urgency env step
              (update_road_attributes env g step (interval == step)
                delta).1
              (select_vehicles env step
                (update_road_attributes env g step (interval == step)
                  delta).1
                (update_road_attributes env g step (interval == step)
                  delta).2.1 level) urgency
              (update_road_attributes env g step (interval == step)
                delta).2.1 with
          | Except.error e =>
            (trace ++ [TraceEvent.mk step true g
              (update_road_attributes env g step (interval == step)
                delta).1], Except.error e)
          | Except.ok sortedVehicles =>
            match ebksp_reroute expF logF env step
                (update_road_attributes env g step (interval == step)
                  delta).1 sortedVehicles
                (computeAllkShortestPaths ksp
                  (update_road_attributes env g step (interval == step)
                    delta).1
                  (updateODPairs env step sortedVehicles) K allPaths)
                (update_road_attributes env g step (interval == step)
                  delta).2.2 with
            | Except.error e =>
              (trace ++ [TraceEvent.mk step true g
                (update_road_attributes env g step (interval == step)
                  delta).1], Except.error e)
            | Except.ok _ =>
              runLoop expF logF ksp env endT interval K delta urgency level
                fuel (step + 1)
                (update_road_attributes env g step (interval == step)
                  delta).1
                (computeAllkShortestPaths ksp
                  (update_road_attributes env g step (interval == step)
                    delta).1
                  (updateODPairs env step sortedVehicles) K allPaths)
                (trace ++ [TraceEvent.mk step true g
                  (update_road_attributes env g step (interval == step)
                    delta).1])
        else
          runLoop expF logF ksp env endT interval K delta urgency level
            fuel (step + 1)
            (update_road_attributes env g step (interval == step) delta).1
            allPaths
            (trace ++ [TraceEvent.mk step true g
              (update_road_attributes env g step (interval == step)
                delta).1])
      else
        runLoop expF logF ksp env endT interval K delta urgency level
          fuel (step + 1) g allPaths
          (trace ++ [TraceEvent.mk step false g g])
    else (trace, Except.ok g)) := rfl

theorem runLoop_eventWF (expF logF : ℚ → ℚ)
    (ksp : Graph → String → String → Nat → List (List String)) (env : Env)
    (endT interval K : Nat) (delta : ℚ) (urgency : String) (level : Nat) :
    ∀ (fuel step : Nat) (g : Graph)
      (allPaths : List ((String × String) × List (List String)))
      (trace : List TraceEvent),
    (∀ ev ∈ trace, eventWF env endT interval delta ev) →
    ∀ ev ∈ (runLoop expF logF ksp env endT interval K delta urgency level
      fuel step g allPaths trace).1,
    eventWF env endT interval delta ev
  | 0, _, _, _, _, htr => htr
  | fuel + 1, step, g, allPaths, trace, htr => by
    rw [runLoop_succ]
    by_cases hloop : step = 1 ∨ env.minExpected step > 0
    · rw [if_pos hloop]
      by_cases hcond : interval ≤ step ∧ interval ≤ endT ∧
          step % interval = 0
      · rw [if_pos hcond]
        have htr' : ∀ ev ∈ trace ++ [TraceEvent.mk step true g
            (update_road_attributes env g step (interval == step)
              delta).1],
            eventWF env endT interval delta ev := by
          intro ev hev
          rcases List.mem_append.mp hev with h | h
          · exact htr ev h
          · rcases List.mem_singleton.mp h with rfl
            exact ⟨⟨fun _ => hcond, fun _ => rfl⟩, fun _ => rfl,
              fun hcon => by cases hcon⟩
        by_cases hcong :
            (update_road_attributes env g step (interval == step)
              delta).2.1 ≠ []
        · rw [if_pos hcong]
          split
          · exact htr'
          · split
            · exact htr'
            · exact runLoop_eventWF expF logF ksp env endT interval K delta
                urgency level fuel (step + 1) _ _ _ htr'
        · rw [if_neg hcong]
          exact runLoop_eventWF expF logF ksp env endT interval K delta
            urgency level fuel (step + 1) _ _ _ htr'
      · rw [if_neg hcond]
        apply runLoop_eventWF expF logF ksp env endT interval K delta
          urgency level fuel (step + 1) g allPaths _
        intro ev hev
        rcases List.mem_append.mp hev with h | h
        · exact htr ev h
        · rcases List.mem_singleton.mp h with rfl
          exact ⟨⟨fun hcon => (Bool.false_ne_true hcon).elim,
            fun hc => absurd hc hcond⟩,
            fun hcon => (Bool.false_ne_true hcon).elim, fun _ => rfl⟩
    · rw [if_neg hloop]
      exact htr
end EBkSP
namespace RkSP

theorem runLoop_succ_rk (pick : String → Nat)
    (ksp : Graph → String → String → Nat → List (List String)) (env : Env)
    (endT interval K : Nat) (delta : ℚ) (level : Nat)
    (fuel step : Nat) (g : Graph) (trace : List TraceEvent) :
    runLoop pick ksp env endT interval K delta level (fuel + 1) step g
      trace =
    (if step = 1 ∨ env.minExpected step > 0 then
      if interval ≤ step ∧ interval ≤ endT ∧ step % interval = 0 then
        if (update_road_attributes env g step (interval == step)
            delta).2 ≠ [] then
          match rksp_reroute env step pick ksp
              (select_vehicles env step
                (update_road_attributes env g step (interval == step)
                  delta).1
                (update_road_attributes env g step (interval == step)
                  delta).2 level)
              (update_road_attributes env g step (interval == step)
                delta).1 K with
          | Except.error e =>
            (trace ++ [TraceEvent.mk step true g
              (update_road_attributes env g step (interval == step)
                delta).1], Except.error e)
          | Except.ok _ =>
            runLoop pick ksp env endT interval K delta level fuel (step + 1)
              (update_road_attributes env g step (interval == step)
                delta).1
              (trace ++ [TraceEvent.mk step true g
                (update_road_attributes env g step (interval == step)
                  delta).1])
        else
          runLoop pick ksp env endT interval K delta level fuel (step + 1)
            (update_road_attributes env g step (interval == step) delta).1
            (trace ++ [TraceEvent.mk step true g
              (update_road_attributes env g step (interval == step)
                delta).1])
      else
        runLoop pick ksp env endT interval K delta level fuel (step + 1) g
          (trace ++ [TraceEvent.mk step false g g])
    else (trace, Except.ok g)) := rfl

theorem runLoop_eventWFR (pick : String → Nat)
    (ksp : Graph → String → String → Nat → List (List String)) (env : Env)
    (endT interval K : Nat) (delta : ℚ) (level : Nat) :
    ∀ (fuel step : Nat) (g : Graph) (trace : List TraceEvent),
    (∀ ev ∈ trace, eventWFR env endT interval delta ev) →
    ∀ ev ∈ (runLoop pick ksp env endT interval K delta level fuel step g
      trace).1,
    eventWFR env endT interval delta ev
  | 0, _, _, _, htr => htr
  | fuel + 1, step, g, trace, htr => by
    rw [runLoop_succ_rk]
    by_cases hloop : step = 1 ∨ env.minExpected step > 0
    · rw [if_pos hloop]
      by_cases hcond : interval ≤ step ∧ interval ≤ endT ∧
          step % interval = 0
      · rw [if_pos hcond]
        have htr' : ∀ ev ∈ trace ++ [TraceEvent.mk step true g
            (update_road_attributes env g step (interval == step)
              delta).1],
            eventWFR env endT interval delta ev := by
          intro ev hev
          rcases List.mem_append.mp hev with h | h
          · exact htr ev h
          · rcases List.mem_singleton.mp h with rfl
            exact ⟨⟨fun _ => hcond, fun _ => rfl⟩, fun _ => rfl,
              fun hcon => (Bool.true_eq_false ▸ hcon).elim⟩
        by_cases hcong :
            (update_road_attributes env g step (interval == step)
              delta).2 ≠ []
        · rw [if_pos hcong]
          split
          · exact htr'
          · exact runLoop_eventWFR pick ksp env endT interval K delta level
              fuel (step + 1) _ _ htr'
        · rw [if_neg hcong]
          exact runLoop_eventWFR pick ksp env endT interval K delta level
            fuel (step + 1) _ _ htr'
      · rw [if_neg hcond]
        apply runLoop_eventWFR pick ksp env endT interval K delta level
          fuel (step + 1) g _
        intro ev hev
        rcases List.mem_append.mp hev with h | h
        · exact htr ev h
        · rcases List.mem_singleton.mp h with rfl
          exact ⟨⟨fun hcon => (Bool.false_ne_true hcon).elim,
            fun hc => absurd hc hcond⟩,
            fun hcon => (Bool.false_ne_true hcon).elim, fun _ => rfl⟩
    · rw [if_neg hloop]
      exact htr
end RkSP

/-- C1: counterexample — with `begin = 5`, `end = 10`, `interval = 2`, the
EBkSP loop fires the full sampling-and-rerouting pipeline at step 2, which
lies outside the configured window `[5, 10]`: the cycle condition never
consults the `begin` parameter. -/
theorem run_fires_before_begin :
    ((EBkSP.run id id kspNone envLoop gEmpty 5 10 2 3 0 "ACI" 3 10).1.map
      (fun ev => (ev.step, ev.fired))) = [(1, false), (2, true)] ∧
    ¬(5 ≤ 2) := ⟨rfl, by decide⟩

/-- C1: amended — for every positive interval and every step recorded by
either run loop, the pipeline fires iff `interval ≤ step`,
`interval ≤ end` and `step % interval = 0` (the source's condition with
`travel_time_cycle_begin` frozen at `interval`); non-firing steps leave
the road graph untouched, and the configured `begin` never influences the
run at all. -/
theorem run_cycle_condition (expF logF : ℚ → ℚ)
    (ksp : Graph → String → String → Nat → List (List String))
    (pick : String → Nat) (env : Env) (g : Graph)
    (beginT beginT' endT interval K : Nat) (delta : ℚ) (urgency : String)
    (level fuel : Nat) (hI : 0 < interval) :
    (∀ ev ∈ (EBkSP.run expF logF ksp env g beginT endT interval K delta
        urgency level fuel).1,
      (ev.fired = true ↔
        interval ≤ ev.step ∧ interval ≤ endT ∧ ev.step % interval = 0) ∧
      (ev.fired = false → ev.gAfter = ev.gBefore)) ∧
    EBkSP.run expF logF ksp env g beginT endT interval K delta urgency
        level fuel =
      EBkSP.run expF logF ksp env g beginT' endT interval K delta urgency
        level fuel ∧
    (∀ ev ∈ (RkSP.run pick ksp env g beginT endT interval K delta level
        fuel).1,
      (ev.fired = true ↔
        interval ≤ ev.step ∧ interval ≤ endT ∧ ev.step % interval = 0) ∧
      (ev.fired = false → ev.gAfter = ev.gBefore)) ∧
    RkSP.run pick ksp env g beginT endT interval K delta level fuel =
      RkSP.run pick ksp env g beginT' endT interval K delta level fuel := by
  refine ⟨?_, rfl, ?_, rfl⟩
  · intro ev hev
    have h := EBkSP.runLoop_eventWF expF logF ksp env endT interval K delta
      urgency level fuel 1 g [] []
      (fun e he => absurd he (List.not_mem_nil e)) ev hev
    exact ⟨h.1, h.2.2⟩
  · intro ev hev
    have h := RkSP.runLoop_eventWFR pick ksp env endT interval K delta
      level fuel 1 g [] (fun e he => absurd he (List.not_mem_nil e)) ev hev
    exact ⟨h.1, h.2.2⟩

/-- Witness for `run_cycle_condition` at a concrete configuration. -/
theorem run_cycle_condition_witness :
    (0 < 2) ∧
    ((∀ ev ∈ (EBkSP.run id id kspNone envLoop gEmpty 5 10 2 3 0 "ACI" 3
        10).1,
      (ev.fired = true ↔ 2 ≤ ev.step ∧ 2 ≤ 10 ∧ ev.step % 2 = 0) ∧
      (ev.fired = false → ev.gAfter = ev.gBefore)) ∧
    EBkSP.run id id kspNone envLoop gEmpty 5 10 2 3 0 "ACI" 3 10 =
      EBkSP.run id id kspNone envLoop gEmpty 7 10 2 3 0 "ACI" 3 10 ∧
    (∀ ev ∈ (RkSP.run (fun s => 0) kspNone envLoop gEmpty 5 10 2 3 0 3
        10).1,
      (ev.fired = true ↔ 2 ≤ ev.step ∧ 2 ≤ 10 ∧ ev.step % 2 = 0) ∧
      (ev.fired = false → ev.gAfter = ev.gBefore)) ∧
    RkSP.run (fun s => 0) kspNone envLoop gEmpty 5 10 2 3 0 3 10 =
      RkSP.run (fun s => 0) kspNone envLoop gEmpty 7 10 2 3 0 3 10) :=
  ⟨by decide, run_cycle_condition id id kspNone (fun s => 0) envLoop gEmpty
    5 7 10 2 3 0 "ACI" 3 10 (by decide)⟩

/-- C2: counterexample — with `interval = 2`, the measurement cycle
beginning at step 4 gets its first sample smoothed
(`(10 + 20) / 2 = 15`) instead of written raw (`20`):
`travel_time_cycle_begin` stays `interval` forever, so only the very
first cycle of the run receives a raw first sample. -/
theorem second_cycle_weight_not_raw :
    ((EBkSP.run id id kspNone envRun2 gAB 5 10 2 3 0 "ACI" 3 4).1.map
      (fun ev => (ev.step, ev.fired, (ev.gAfter.attrD "a" "b").weight))) =
      [(1, false, 0), (2, true, 10), (3, false, 10), (4, true, 15)] ∧
    sampleTravelTime envRun2 4 "a" = 20 ∧ (15 : ℚ) ≠ 20 := by
  refine ⟨?_, ?_, ?_⟩
  · norm_num +decide [EBkSP.run, EBkSP.runLoop,
      EBkSP.update_road_attributes, EBkSP.roadPass, EBkSP.statsStep,
      weightWrite, wwEntry, smoothWeight, sampleTravelTime, meanSpeed,
      envRun2, envEmpty, envFast, gAB, Graph.succ, Graph.attrD,
      Graph.attr?, isInternal, setAdd, List.find?, List.filterMap,
      List.foldl, MIN_GAP]
  · norm_num [sampleTravelTime, envRun2, envEmpty]
  · norm_num

/-- C2: amended — every fired cycle step rewrites each present outgoing
edge of each non-internal road with: the raw travel-time sample exactly
when `step = interval` (the only step at which
`travel_time_cycle_begin == step` holds), and otherwise the smoothed
weight `average(prev, sample)` (falling back to the raw sample when that
average is non-positive, as `smoothWeight` does) — so the first sample of
every cycle after the first is smoothed, not raw. -/
theorem weight_smoothing_cycles (expF logF : ℚ → ℚ)
    (ksp : Graph → String → String → Nat → List (List String)) (env : Env)
    (g0 : Graph) (beginT endT interval K : Nat) (delta : ℚ)
    (urgency : String) (level fuel : Nat) (ev : TraceEvent)
    (hev : ev ∈ (EBkSP.run expF logF ksp env g0 beginT endT interval K
      delta urgency level fuel).1)
    (hf : ev.fired = true) (r s : String) (a : EdgeAttr)
    (hnd : ev.gBefore.nodes.Nodup) (hr : r ∈ ev.gBefore.nodes)
    (hint : ¬isInternal r) (ha : ev.gBefore.attr? r s = some a) :
    ev.gAfter.attr? r s = some { a with weight :=
      (if ev.step = interval then sampleTravelTime env ev.step r
      else smoothWeight a.weight (sampleTravelTime env ev.step r)) } := by
  have hWF := EBkSP.runLoop_eventWF expF logF ksp env endT interval K
    delta urgency level fuel 1 g0 [] []
    (fun e he => absurd he (List.not_mem_nil e)) ev hev
  rw [hWF.2.1 hf]
  rw [EBkSP.update_attr env ev.gBefore ev.step (interval == ev.step) delta
    r s a hnd hr hint ha]
  by_cases hstep : ev.step = interval
  · rw [if_pos (show (interval == ev.step) = true from
      beq_iff_eq.mpr hstep.symm), if_pos hstep]
  · rw [if_neg (show ¬(interval == ev.step) = true from
      fun hcon => hstep (eq_of_beq hcon).symm), if_neg hstep]

/-- Witness for `weight_smoothing_cycles`: the step-2 event of a concrete
run (the single `step = interval` step, whose sample is written raw). -/
theorem weight_smoothing_cycles_witness :
    Graph.attr? gABw10 "a" "b" = some (EdgeAttr.mk 100 10
      (if (2 : Nat) = 2 then sampleTravelTime envRun2 2 "a"
        else smoothWeight 0 (sampleTravelTime envRun2 2 "a"))) := by
  refine weight_smoothing_cycles id id kspNone envRun2 gAB 5 10 2 3 0
    "ACI" 3 2 (TraceEvent.mk 2 true gAB gABw10) ?_ rfl "a" "b"
    ⟨100, 10, 0⟩ ?_ ?_ ?_ ?_
  · norm_num +decide [EBkSP.run, EBkSP.runLoop,
      EBkSP.update_road_attributes, EBkSP.roadPass, EBkSP.statsStep,
      weightWrite, wwEntry, smoothWeight, sampleTravelTime, meanSpeed,
      envRun2, envEmpty, envFast, gAB, gABw10, Graph.succ, Graph.attrD,
      Graph.attr?, isInternal, setAdd, List.find?, List.filterMap,
      List.foldl, MIN_GAP]
  · decide
  · decide
  · decide
  · rfl

theorem subset_reachUpTo (succ : String → List String) :
    ∀ (n : Nat) (f : List String), f ⊆ reachUpTo succ n f
  | 0, _ => fun _ h => h
  | _ + 1, _ => fun _ h => List.mem_append_left _ h

theorem reachUpTo_mono (succ : String → List String) :
    ∀ (m n : Nat), m ≤ n → ∀ (f : List String),
      reachUpTo succ m f ⊆ reachUpTo succ n f
  | 0, n, _, f => fun _ h => subset_reachUpTo succ n f h
  | _ + 1, 0, h, _ => absurd h (Nat.not_succ_le_zero _)
  | m + 1, n + 1, h, f => fun x hx => by
    rcases List.mem_append.mp hx with h1 | h1
    · exact List.mem_append_left _ h1
    · exact List.mem_append_right _
        (reachUpTo_mono succ m n (Nat.le_of_succ_le_succ h)
          (stepAll succ f) h1)

theorem mem_stepAll (succ : String → List String) {f : List String}
    {u w : String} (hu : u ∈ f) (hw : w ∈ succ u) : w ∈ stepAll succ f :=
  List.mem_flatten.mpr ⟨succ u, List.mem_map_of_mem succ hu, hw⟩

theorem reachUpTo_step (succ : String → List String) :
    ∀ (n : Nat) (f : List String) (u w : String),
      u ∈ reachUpTo succ n f → w ∈ succ u → w ∈ reachUpTo succ (n + 1) f
  | 0, f, _, _, hu, hw =>
    List.mem_append_right _ (mem_stepAll succ hu hw)
  | n + 1, f, u, w, hu, hw => by
    rcases List.mem_append.mp hu with h1 | h1
    · exact List.mem_append_right _
        (subset_reachUpTo succ (n + 1) (stepAll succ f)
          (mem_stepAll succ h1 hw))
    · exact List.mem_append_right _
        (reachUpTo_step succ n (stepAll succ f) u w h1 hw)

theorem expandFold_spec (succ : String → List String) (f : List String)
    (u : String) (hu : u ∈ f) :
    ∀ (l : List String), (∀ x ∈ l, x ∈ succ u) →
    ∀ (st : List (String × String) × List String × List String),
    st.2.2 = st.1.map (fun e => e.2) →
    (∀ e ∈ st.1, e.1 ∈ f ∧ e.2 ∈ succ e.1) →
    (l.foldl (fun st v => if v ∈ st.2.1 then st
      else (st.1 ++ [(u, v)], st.2.1 ++ [v], st.2.2 ++ [v])) st).2.2 =
      (l.foldl (fun st v => if v ∈ st.2.1 then st
        else (st.1 ++ [(u, v)], st.2.1 ++ [v], st.2.2 ++ [v])) st).1.map
        (fun e => e.2) ∧
    ∀ e ∈ (l.foldl (fun st v => if v ∈ st.2.1 then st
      else (st.1 ++ [(u, v)], st.2.1 ++ [v], st.2.2 ++ [v])) st).1,
      e.1 ∈ f ∧ e.2 ∈ succ e.1
  | [], _, st, h1, h2 => ⟨h1, h2⟩
  | x :: l, hl, st, h1, h2 => by
    rw [List.foldl_cons]
    by_cases hx : x ∈ st.2.1
    · rw [if_pos hx]
      exact expandFold_spec succ f u hu l
        (fun y hy => hl y (List.mem_cons_of_mem x hy)) st h1 h2
    · rw [if_neg hx]
      refine expandFold_spec succ f u hu l
        (fun y hy => hl y (List.mem_cons_of_mem x hy))
        (st.1 ++ [(u, x)], st.2.1 ++ [x], st.2.2 ++ [x]) ?_ ?_
      · show st.2.2 ++ [x] = (st.1 ++ [(u, x)]).map (fun e => e.2)
        rw [List.map_append, h1]
        rfl
      · intro e he
        rcases List.mem_append.mp he with h | h
        · exact h2 e h
        · rw [List.mem_singleton] at h
          subst h
          exact ⟨hu, hl x (List.mem_cons_self x l)⟩

theorem bfsFold_spec (succ : String → List String) (f : List String) :
    ∀ (l : List String), (∀ x ∈ l, x ∈ f) →
    ∀ (st : List (String × String) × List String × List String),
    st.2.2 = st.1.map (fun e => e.2) →
    (∀ e ∈ st.1, e.1 ∈ f ∧ e.2 ∈ succ e.1) →
    (l.foldl (fun st u => expandNode succ u st) st).2.2 =
      (l.foldl (fun st u => expandNode succ u st) st).1.map
        (fun e => e.2) ∧
    ∀ e ∈ (l.foldl (fun st u => expandNode succ u st) st).1,
      e.1 ∈ f ∧ e.2 ∈ succ e.1
  | [], _, st, h1, h2 => ⟨h1, h2⟩
  | u :: l, hl, st, h1, h2 => by
    rw [List.foldl_cons]
    have hexp := expandFold_spec succ f u (hl u (List.mem_cons_self u l))
      (succ u) (fun x hx => hx) st h1 h2
    exact bfsFold_spec succ f l
      (fun y hy => hl y (List.mem_cons_of_mem u hy))
      (expandNode succ u st) hexp.1 hexp.2

theorem bfsRound_spec (succ : String → List String) (f v : List String) :
    (bfsRound succ f v).2.2 = (bfsRound succ f v).1.map (fun e => e.2) ∧
    ∀ e ∈ (bfsRound succ f v).1, e.1 ∈ f ∧ e.2 ∈ succ e.1 :=
  bfsFold_spec succ f f (fun _ hu => hu) ([], v, []) rfl
    (fun e he => absurd he (List.not_mem_nil e))

theorem processEdges_cons (occ : String → List String) (L : Nat)
    (e : String × String) (rest : List (String × String)) (c : Nat)
    (b sel : List String) :
    processEdges occ L (e :: rest) c b sel =
    (if isInternal e.2 then processEdges occ L rest c b sel
     else
       if (if e.1 ∈ b then (c + 1, ([] : List String)) else (c, b)).1 = L
       then sel
       else
         processEdges occ L rest
           (if e.1 ∈ b then (c + 1, ([] : List String)) else (c, b)).1
           ((if e.1 ∈ b then (c + 1, ([] : List String)) else (c, b)).2
             ++ [e.2])
           (listUnion
             (if (if e.1 ∈ b then (c + 1, ([] : List String))
                 else (c, b)).1 = 0 ∧
                 e.1 ∉ (if e.1 ∈ b then (c + 1, ([] : List String))
                   else (c, b)).2 then
               listUnion sel (occ e.1)
             else sel) (occ e.2))) := rfl

theorem processEdges_cons_mem (occ : String → List String) (L : Nat)
    (e : String × String) (rest : List (String × String)) (c : Nat)
    (b sel : List String) (hni : isInternal e.2 = false)
    (hb : e.1 ∈ b) :
    processEdges occ L (e :: rest) c b sel =
    if c + 1 = L then sel
    else processEdges occ L rest (c + 1) [e.2]
      (listUnion sel (occ e.2)) := by
  simp [processEdges_cons, hni, hb]

theorem processEdges_cons_notmem (occ : String → List String) (L : Nat)
    (e : String × String) (rest : List (String × String)) (c : Nat)
    (b sel : List String) (hni : isInternal e.2 = false)
    (hb : e.1 ∉ b) :
    processEdges occ L (e :: rest) c b sel =
    if c = L then sel
    else processEdges occ L rest c (b ++ [e.2])
      (listUnion (if c = 0 then listUnion sel (occ e.1) else sel)
        (occ e.2)) := by
  simp [processEdges_cons, hni, hb]

theorem processEdges_chain (occ succ : String → List String)
    (root : String) (L : Nat) (rest : List (String × String))
    (f : List String)
    (Hni : ∀ u w, w ∈ succ u → isInternal w = false) :
    ∀ (es : List (String × String)) (c : Nat) (b sel : List String),
    (∀ e ∈ es, e.1 ∈ f ∧ e.2 ∈ succ e.1) →
    (∀ u ∈ f, levelOk succ root c b u) →
    (c < L ∨ (c = L ∧ b = [])) →
    (∃ c' b' sel',
      processEdges occ L (es ++ rest) c b sel =
        processEdges occ L rest c' b' sel' ∧
      (∀ u, levelOk succ root c b u → levelOk succ root c' b' u) ∧
      (∀ e ∈ es, levelOk succ root c' b' e.2) ∧
      (c' < L ∨ (c' = L ∧ b' = [])) ∧
      (∀ x ∈ sel', x ∈ sel ∨ ∃ road, road ∈ reachUpTo succ L [root] ∧
        x ∈ occ road)) ∨
    (∀ x ∈ processEdges occ L (es ++ rest) c b sel,
      x ∈ sel ∨ ∃ road, road ∈ reachUpTo succ L [root] ∧ x ∈ occ road)
  | [], c, b, sel, _, _, hinv =>
    Or.inl ⟨c, b, sel, rfl, fun _ h => h,
      fun e he => absurd he (List.not_mem_nil e), hinv,
      fun _ hx => Or.inl hx⟩
  | e :: es, c, b, sel, hes, hf, hinv => by
    have he1 : e.1 ∈ f := (hes e (List.mem_cons_self e es)).1
    have he2 : e.2 ∈ succ e.1 := (hes e (List.mem_cons_self e es)).2
    have hni : isInternal e.2 = false := Hni e.1 e.2 he2
    have hes' : ∀ e' ∈ es, e'.1 ∈ f ∧ e'.2 ∈ succ e'.1 :=
      fun e' he' => hes e' (List.mem_cons_of_mem e he')
    rw [List.cons_append]
    by_cases hb : e.1 ∈ b
    · rw [processEdges_cons_mem occ L e (es ++ rest) c b sel hni hb]
      have hcL : c < L := by
        rcases hinv with h | ⟨_, hbnil⟩
        · exact h
        · rw [hbnil] at hb
          exact absurd hb (List.not_mem_nil e.1)
      have he1r : e.1 ∈ reachUpTo succ (c + 1) [root] := by
        rcases hf e.1 he1 with ⟨_, h2⟩ | h2
        · exact h2
        · exact reachUpTo_mono succ c (c + 1) (Nat.le_succ c) [root] h2
      have he2r : e.2 ∈ reachUpTo succ (c + 2) [root] :=
        reachUpTo_step succ (c + 1) [root] e.1 e.2 he1r he2
      by_cases hL : c + 1 = L
      · rw [if_pos hL]
        exact Or.inr (fun x hx => Or.inl hx)
      · rw [if_neg hL]
        have hcL1 : c + 1 < L := Nat.lt_of_le_of_ne (Nat.succ_le_of_lt hcL) hL
        have hpres : ∀ u, levelOk succ root c b u →
            levelOk succ root (c + 1) [e.2] u := by
          intro u hu
          rcases hu with ⟨_, h2⟩ | h2
          · exact Or.inr h2
          · exact Or.inr (reachUpTo_mono succ c (c + 1) (Nat.le_succ c)
              [root] h2)
        have he2lvl : levelOk succ root (c + 1) [e.2] e.2 :=
          Or.inl ⟨List.mem_singleton.mpr rfl, he2r⟩
        have hsel2 : ∀ x ∈ listUnion sel (occ e.2),
            x ∈ sel ∨ ∃ road, road ∈ reachUpTo succ L [root] ∧
              x ∈ occ road := by
          intro x hx
          rcases mem_listUnion.mp hx with h | h
          · exact Or.inl h
          · exact Or.inr ⟨e.2, reachUpTo_mono succ (c + 2) L
              (Nat.succ_le_of_lt hcL1) [root] he2r, h⟩
        rcases processEdges_chain occ succ root L rest f Hni es (c + 1)
            [e.2] (listUnion sel (occ e.2)) hes'
            (fun u hu => hpres u (hf u hu)) (Or.inl hcL1) with
          ⟨c', b', sel', heq, hpres', hch', hinv', hsel'⟩ | hbrk
        · refine Or.inl ⟨c', b', sel', heq, fun u hu => hpres' u
            (hpres u hu), ?_, hinv', ?_⟩
          · intro e' he'
            rcases List.mem_cons.mp he' with rfl | h
            · exact hpres' e'.2 he2lvl
            · exact hch' e' h
          · intro x hx
            rcases hsel' x hx with h | h
            · exact hsel2 x h
            · exact Or.inr h
        · refine Or.inr ?_
          intro x hx
          rcases hbrk x hx with h | h
          · exact hsel2 x h
          · exact Or.inr h
    · rw [processEdges_cons_notmem occ L e (es ++ rest) c b sel hni hb]
      by_cases hL : c = L
      · rw [if_pos hL]
        exact Or.inr (fun x hx => Or.inl hx)
      · rw [if_neg hL]
        have hcL : c < L := by
          rcases hinv with h | ⟨hc, _⟩
          · exact h
          · exact absurd hc hL
        have he1r : e.1 ∈ reachUpTo succ c [root] := by
          rcases hf e.1 he1 with ⟨h1, _⟩ | h2
          · exact absurd h1 hb
          · exact h2
        have he2r : e.2 ∈ reachUpTo succ (c + 1) [root] :=
          reachUpTo_step succ c [root] e.1 e.2 he1r he2
        have hpres : ∀ u, levelOk succ root c b u →
            levelOk succ root c (b ++ [e.2]) u := by
          intro u hu
          rcases hu with ⟨h1, h2⟩ | h2
          · exact Or.inl ⟨List.mem_append_left _ h1, h2⟩
          · exact Or.inr h2
        have he2lvl : levelOk succ root c (b ++ [e.2]) e.2 :=
          Or.inl ⟨List.mem_append_right _ (List.mem_singleton.mpr rfl),
            he2r⟩
        have hsel1 : ∀ x ∈ (if c = 0 then listUnion sel (occ e.1)
            else sel), x ∈ sel ∨ ∃ road,
              road ∈ reachUpTo succ L [root] ∧ x ∈ occ road := by
          by_cases hc0 : c = 0
          · rw [if_pos hc0]
            intro x hx
            rcases mem_listUnion.mp hx with h | h
            · exact Or.inl h
            · exact Or.inr ⟨e.1, reachUpTo_mono succ c L
                (Nat.le_of_lt hcL) [root] he1r, h⟩
          · rw [if_neg hc0]
            exact fun x hx => Or.inl hx
        have hsel2 : ∀ x ∈ listUnion (if c = 0 then
            listUnion sel (occ e.1) else sel) (occ e.2),
            x ∈ sel ∨ ∃ road, road ∈ reachUpTo succ L [root] ∧
              x ∈ occ road := by
          intro x hx
          rcases mem_listUnion.mp hx with h | h
          · exact hsel1 x h
          · exact Or.inr ⟨e.2, reachUpTo_mono succ (c + 1) L
              (Nat.succ_le_of_lt hcL) [root] he2r, h⟩
        rcases processEdges_chain occ succ root L rest f Hni es c
            (b ++ [e.2])
            (listUnion (if c = 0 then listUnion sel (occ e.1) else sel)
              (occ e.2)) hes'
            (fun u hu => hpres u (hf u hu)) (Or.inl hcL) with
          ⟨c', b', sel', heq, hpres', hch', hinv', hsel'⟩ | hbrk
        · refine Or.inl ⟨c', b', sel', heq, fun u hu => hpres' u
            (hpres u hu), ?_, hinv', ?_⟩
          · intro e' he'
            rcases List.mem_cons.mp he' with rfl | h
            · exact hpres' e'.2 he2lvl
            · exact hch' e' h
          · intro x hx
            rcases hsel' x hx with h | h
            · exact hsel2 x h
            · exact Or.inr h
        · refine Or.inr ?_
          intro x hx
          rcases hbrk x hx with h | h
          · exact hsel2 x h
          · exact Or.inr h

theorem bfs_select_sound (occ succ : String → List String)
    (root : String) (L : Nat)
    (Hni : ∀ u w, w ∈ succ u → isInternal w = false) :
    ∀ (fuel : Nat) (f v : List String) (c : Nat) (b sel : List String),
    (∀ u ∈ f, levelOk succ root c b u) →
    (c < L ∨ (c = L ∧ b = [])) →
    ∀ x ∈ processEdges occ L
      (((bfsGroups succ fuel f v).map (fun p => p.1)).flatten) c b sel,
    x ∈ sel ∨ ∃ road, road ∈ reachUpTo succ L [root] ∧ x ∈ occ road
  | 0, _, _, _, _, sel, _, _, _, hx => Or.inl hx
  | fuel + 1, f, v, c, b, sel, hf, hinv, x, hx => by
    match f, hf, hx with
    | [], _, hx => exact Or.inl hx
    | f0 :: fs, hf, hx =>
      have hspec := bfsRound_spec succ (f0 :: fs) v
      have hx' : x ∈ processEdges occ L
          ((bfsRound succ (f0 :: fs) v).1 ++
            (((bfsGroups succ fuel (bfsRound succ (f0 :: fs) v).2.2
              (bfsRound succ (f0 :: fs) v).2.1).map
                (fun p => p.1)).flatten)) c b sel := hx
      rcases processEdges_chain occ succ root L
          (((bfsGroups succ fuel (bfsRound succ (f0 :: fs) v).2.2
            (bfsRound succ (f0 :: fs) v).2.1).map
              (fun p => p.1)).flatten) (f0 :: fs) Hni
          (bfsRound succ (f0 :: fs) v).1 c b sel hspec.2 hf hinv with
        ⟨c', b', sel', heq, _, hch, hinv', hsel⟩ | hbrk
      · rw [heq] at hx'
        have hf' : ∀ u ∈ (bfsRound succ (f0 :: fs) v).2.2,
            levelOk succ root c' b' u := by
          intro u hu
          rw [hspec.1] at hu
          rcases List.mem_map.mp hu with ⟨e, he, rfl⟩
          exact hch e he
        rcases bfs_select_sound occ succ root L Hni fuel
            (bfsRound succ (f0 :: fs) v).2.2
            (bfsRound succ (f0 :: fs) v).2.1 c' b' sel' hf' hinv'
            x hx' with h | h
        · rcases hsel x h with h2 | h2
          · exact Or.inl h2
          · exact Or.inr h2
        · exact Or.inr h
      · exact hbrk x hx'

theorem select_fold_sound (env : Env) (time : Nat) (g : Graph) (L : Nat)
    (Hni : ∀ u w, w ∈ g.reverse.succ u → isInternal w = false) :
    ∀ (roads sel : List String),
    ∀ x ∈ roads.foldl (fun selectedVehicles road =>
      processEdges (env.lastStepVehicleIDs time) L
        (bfs_edges g.reverse road) 0 [] selectedVehicles) sel,
    x ∈ sel ∨ ∃ root ∈ roads, ∃ road,
      road ∈ reachUpTo g.reverse.succ L [root] ∧
      x ∈ env.lastStepVehicleIDs time road
  | [], _, _, hx => Or.inl hx
  | r :: roads, sel, x, hx => by
    rw [List.foldl_cons] at hx
    rcases select_fold_sound env time g L Hni roads _ x hx with
      h | ⟨root, hroot, road, h1, h2⟩
    · rcases bfs_select_sound (env.lastStepVehicleIDs time)
          g.reverse.succ r L Hni (g.reverse.nodes.length + 1) [r] [r] 0 []
          sel
          (fun u hu => Or.inr (by
            rw [List.mem_singleton] at hu
            rw [hu]
            exact List.mem_singleton.mpr rfl))
          (by
            rcases Nat.eq_zero_or_pos L with h0 | h0
            · exact Or.inr ⟨h0.symm, rfl⟩
            · exact Or.inl h0)
          x h with h' | ⟨road, h1, h2⟩
      · exact Or.inl h'
      · exact Or.inr ⟨r, List.mem_cons_self r roads, road, h1, h2⟩
    · exact Or.inr ⟨root, List.mem_cons_of_mem r hroot, road, h1, h2⟩

/-- C6: amended — on graphs whose edge sources are all non-internal
segments (so that the skip of internal BFS children never interferes with
the level counter), every vehicle selected by `select_vehicles` occupies a
segment at most `L` breadth-first steps upstream — in the reversed graph —
of at least one congested segment. -/
theorem selection_bounded_without_internal (env : Env) (time : Nat)
    (g : Graph) (congested : List String) (L : Nat)
    (hsrc : ∀ e ∈ g.edges, isInternal e.1.1 = false) :
    ∀ x ∈ select_vehicles env time g congested L,
    ∃ root ∈ congested, ∃ road,
      road ∈ reachUpTo g.reverse.succ L [root] ∧
      x ∈ env.lastStepVehicleIDs time road := by
  have Hni : ∀ u w, w ∈ g.reverse.succ u → isInternal w = false := by
    intro u w hw
    unfold Graph.succ Graph.reverse at hw
    rw [List.filterMap_map] at hw
    rcases List.mem_filterMap.mp hw with ⟨e, he, hfe⟩
    have hfe' : (if e.1.2 == u then some e.1.1 else none) = some w := hfe
    by_cases hc : e.1.2 == u
    · rw [if_pos hc] at hfe'
      rw [← Option.some_inj.mp hfe']
      exact hsrc e he
    · rw [if_neg hc] at hfe'
      exact absurd hfe' (Option.noConfusion)
  intro x hx
  rcases select_fold_sound env time g L Hni congested [] x hx with h | h
  · exact absurd h (List.not_mem_nil x)
  · exact h

/-- Witness for `selection_bounded_without_internal` on a concrete
internal-free graph. -/
theorem selection_bounded_without_internal_witness :
    (∀ e ∈ gAB.edges, isInternal e.1.1 = false) ∧
    (∀ x ∈ select_vehicles envSel 0 gAB ["b"] 1,
      ∃ root ∈ ["b"], ∃ road,
        road ∈ reachUpTo gAB.reverse.succ 1 [root] ∧
        x ∈ envSel.lastStepVehicleIDs 0 road) :=
  ⟨by decide, selection_bounded_without_internal envSel 0 gAB ["b"] 1
    (by decide)⟩

/-- C6: counterexample — with one internal junction `:j` between the
congested segment `r` and the occupied segment `w`, `select_vehicles`
with `maxLevels = 1` selects `veh1` even though `w` is two breadth-first
layers (and two reachability steps) upstream of `r`: the skip of internal
children starves the level counter. -/
theorem selection_beyond_level_bound :
    select_vehicles envB 0 gBfs ["r"] 1 = ["veh1"] ∧
    (∀ road ∈ withinLayers gBfs.reverse "r" 1,
      "veh1" ∉ envB.lastStepVehicleIDs 0 road) ∧
    (∀ road ∈ reachUpTo gBfs.reverse.succ 1 ["r"],
      "veh1" ∉ envB.lastStepVehicleIDs 0 road) := by decide
